import Mathlib

/-!
Verification development for the coco process-run engine.

The definitions below are a shallow embedding of the Rust sources
`src/app/src-tauri/src/services/run_service.rs`,
`src/app/src-tauri/src/services/script_service.rs`,
`src/app/src-tauri/src/types/mod.rs` and
`src/app/src-tauri/src/error.rs`.

Conventions of the embedding:
* SQLite tables are modelled as lists of row structures; `INSERT` appends a
  row, `UPDATE ... WHERE id = ?` maps a row transformer over all rows with a
  matching id, and `SELECT ... ORDER BY` filters and sorts.
* The in-memory `HashMap`s guarded by `RwLock`s are modelled as association
  lists with replace-on-insert and filter-on-remove semantics; `HashMap`
  iteration order is modelled by quantifying over list orders.
* Timestamps are abstract `Nat` instants, uuids are caller-supplied strings.
* A spawned child process is modelled by the `ExitStatus` its `wait` call
  would eventually return; a failed spawn is `Option.none`.
* The asynchronous reader/completion tasks of `execute_command` become
  separate labelled transitions of a step function; the ghost field
  `pendingCompletion` records for which runs a completion task was actually
  spawned, so that the transition system only ever fires completion bodies
  the code could schedule.
-/

namespace Coco

/-- Enum `RunStatus` from `types/mod.rs`. -/
inductive RunStatus where
  | running
  | success
  | failed
  | cancelled
deriving DecidableEq, Repr

/-- Enum `RunType` from `types/mod.rs`. -/
inductive RunType where
  | build
  | test
  | deploy
deriving DecidableEq, Repr

/-- Enum `ScriptRunStatus` from `types/mod.rs`. -/
inductive ScriptRunStatus where
  | running
  | success
  | failed
  | cancelled
deriving DecidableEq, Repr

/-- Enum `ScriptFlagType` from `types/mod.rs`. -/
inductive ScriptFlagType where
  | string
  | boolean
  | number
deriving DecidableEq, Repr

/-- Enum `ScriptRunner`: the runner kinds dispatched on by `build_command` in
`script_service.rs`. -/
inductive ScriptRunner where
  | bash
  | node
  | bun
  | python
  | npx
  | custom
  | forge
  | forgeTest
  | forgeBuild
  | hardhat
  | hardhatTest
  | hardhatCompile
  | anchor
  | anchorTest
  | anchorBuild
  | aptosMoveCompile
  | aptosMoveTest
  | aptosMovePublish
deriving DecidableEq, Repr

/-- Error enum `CocoError` from `error.rs` (variants relevant to the run engine). -/
inductive CocoError where
  | notFound (msg : String)
  | validation (msg : String)
  | process (msg : String)
  | database (msg : String)
deriving DecidableEq, Repr

/-- Function `run_status_to_string` from `run_service.rs`. -/
def run_status_to_string : RunStatus → String
  | .running => "running"
  | .success => "success"
  | .failed => "failed"
  | .cancelled => "cancelled"

/-- Function `string_to_run_status` from `run_service.rs` (exact string match,
anything unrecognized decodes to `Running`). -/
def string_to_run_status (s : String) : RunStatus :=
  if s = "success" then .success
  else if s = "failed" then .failed
  else if s = "cancelled" then .cancelled
  else .running

/-- Function `run_type_to_string` from `run_service.rs`. -/
def run_type_to_string : RunType → String
  | .build => "build"
  | .test => "test"
  | .deploy => "deploy"

/-- Function `string_to_run_type` from `run_service.rs`. -/
def string_to_run_type (s : String) : RunType :=
  if s = "test" then .test
  else if s = "deploy" then .deploy
  else .build

/-- Function `status_to_string` from `script_service.rs`. -/
def status_to_string : ScriptRunStatus → String
  | .running => "running"
  | .success => "success"
  | .failed => "failed"
  | .cancelled => "cancelled"

/-- Rust `str::to_lowercase`, modelled characterwise over the string's data. -/
def str_to_lower (s : String) : String := ⟨s.data.map Char.toLower⟩

/-- Conversion `impl From<&str> for ScriptRunStatus` from `types/mod.rs`
(matches on the lowercased string; anything unrecognized decodes to
`Running`). -/
def script_run_status_from_str (s : String) : ScriptRunStatus :=
  if str_to_lower s = "success" then .success
  else if str_to_lower s = "failed" then .failed
  else if str_to_lower s = "cancelled" then .cancelled
  else .running

/-!
## ProcessSpec resolver (`get_build_command` / `get_test_command` /
`get_deploy_command` in `run_service.rs`)

The resolver only performs existence checks on marker files in the project
directory, so a directory is modelled by which markers it contains.
-/

/-- The framework marker files a project directory may contain, as probed by
the resolver in `run_service.rs`. -/
structure Markers where
  foundryToml : Bool
  anchorToml : Bool
  moveToml : Bool
  hardhatConfigJs : Bool
  hardhatConfigTs : Bool
deriving DecidableEq, Repr

/-- Resolver `get_build_command` from `run_service.rs`. -/
def get_build_command (m : Markers) : Except CocoError (List String) :=
  if m.foundryToml then .ok ["forge", "build"]
  else if m.anchorToml then .ok ["anchor", "build"]
  else if m.moveToml then .ok ["aptos", "move", "compile"]
  else if m.hardhatConfigJs || m.hardhatConfigTs then .ok ["npx", "hardhat", "compile"]
  else .error (.validation "Unknown project framework")

/-- Resolver `get_test_command` from `run_service.rs`. -/
def get_test_command (m : Markers) : Except CocoError (List String) :=
  if m.foundryToml then .ok ["forge", "test", "-vvv"]
  else if m.anchorToml then .ok ["anchor", "test"]
  else if m.moveToml then .ok ["aptos", "move", "test"]
  else if m.hardhatConfigJs || m.hardhatConfigTs then .ok ["npx", "hardhat", "test"]
  else .error (.validation "Unknown project framework")

/-- Resolver `get_deploy_command` from `run_service.rs`. -/
def get_deploy_command (m : Markers) (script_path : String) : Except CocoError (List String) :=
  if m.foundryToml then .ok ["forge", "script", script_path, "--broadcast"]
  else if m.anchorToml then .ok ["anchor", "deploy"]
  else if m.moveToml then .ok ["aptos", "move", "publish"]
  else if m.hardhatConfigJs || m.hardhatConfigTs then .ok ["npx", "hardhat", "run", script_path]
  else .error (.validation "Unknown project framework")

/-!
## Command builder (`build_command` in `script_service.rs`)
-/

/-- Struct `ScriptFlag` from `types/mod.rs` (fields used by the engine). -/
structure ScriptFlag where
  flagName : String
  flagType : ScriptFlagType
  defaultValue : Option String
  required : Bool
deriving DecidableEq, Repr

/-- Struct `Script` from `types/mod.rs` (fields used by the engine). -/
structure Script where
  id : String
  workspaceId : String
  runner : ScriptRunner
  filePath : String
  command : Option String
  workingDirectory : Option String
  flags : List ScriptFlag
deriving DecidableEq, Repr

/-- A ready-to-spawn command descriptor: the program plus its argv tail,
as assembled by `tokio::process::Command` in `build_command`. -/
structure CommandSpec where
  program : String
  args : List String
deriving DecidableEq, Repr

/-- The body of the flag-argument loop at the top of `build_command`: the
tokens one `(name, value)` entry of the caller-supplied mapping pushes.
The name is looked up among the script's declared flags; a declared boolean
flag renders as a bare switch when the value is literally `"true"` and as
nothing otherwise, and every other case (non-boolean declared type, or no
declaration found) renders the two tokens `name value`. -/
def render_flag (script : Script) (p : String × String) : List String :=
  if (script.flags.find? fun f => f.flagName = p.1).map (·.flagType) =
      some ScriptFlagType.boolean then
    if p.2 = "true" then [p.1] else []
  else [p.1, p.2]

/-- The flag-argument loop at the top of `build_command`: the entries of
the caller-supplied mapping, in iteration order, each push their rendered
tokens. -/
def flag_args (script : Script) (flags : List (String × String)) : List String :=
  flags.flatMap (render_flag script)

/-- Tokenization (`split_whitespace`) of the script's free-text `command` field, used by
`build_command` to collect passthrough `extra_args`. -/
def extra_args (script : Script) : List String :=
  ((script.command.getD "").split Char.isWhitespace).filter (· ≠ "")

/-- Function `get_shell_command` from `script_service.rs` (the non-Windows branch of
the compile-time `cfg` switch). -/
def get_shell_command : String × String := ("/bin/sh", "-c")

/-- The shell command string assembled for the `Bash` runner in
`build_command`: the file path followed by each flag token separated by
spaces. -/
def bash_cmd_str (script : Script) (args : List String) : String :=
  args.foldl (fun acc a => acc ++ " " ++ a) script.filePath

/-- The shell command string assembled for the `Custom` runner in
`build_command`. -/
def custom_cmd_str (script : Script) (args : List String) : String :=
  let base := script.command.getD ""
  let withFile :=
    if script.filePath ≠ "" && script.filePath ≠ "." then
      (if base ≠ "" then base ++ " " else base) ++ script.filePath
    else base
  args.foldl (fun acc a => acc ++ " " ++ a) withFile

/-- Builder `build_command` from `script_service.rs`: dispatch on the runner kind
and assemble the concrete invocation. -/
def build_command (script : Script) (flags : List (String × String)) : CommandSpec :=
  let args := flag_args script flags
  let extra := extra_args script
  let hasFile := script.filePath ≠ "" && script.filePath ≠ "."
  match script.runner with
  | .bash =>
      ⟨get_shell_command.1, [get_shell_command.2, bash_cmd_str script args]⟩
  | .node => ⟨"node", script.filePath :: args⟩
  | .bun => ⟨"bun", "run" :: script.filePath :: args⟩
  | .python => ⟨"python3", script.filePath :: args⟩
  | .npx => ⟨"npx", script.filePath :: args⟩
  | .custom =>
      ⟨get_shell_command.1, [get_shell_command.2, custom_cmd_str script args]⟩
  | .forge => ⟨"forge", "script" :: script.filePath :: (extra ++ args)⟩
  | .forgeTest =>
      ⟨"forge", "test" :: ((if hasFile then ["--match-path", script.filePath] else []) ++ extra ++ args)⟩
  | .forgeBuild => ⟨"forge", "build" :: (extra ++ args)⟩
  | .hardhat => ⟨"npx", "hardhat" :: "run" :: script.filePath :: (extra ++ args)⟩
  | .hardhatTest =>
      ⟨"npx", "hardhat" :: "test" :: ((if hasFile then [script.filePath] else []) ++ extra ++ args)⟩
  | .hardhatCompile => ⟨"npx", "hardhat" :: "compile" :: (extra ++ args)⟩
  | .anchor =>
      ⟨"anchor", "run" :: ((if hasFile then [script.filePath] else []) ++ extra ++ args)⟩
  | .anchorTest =>
      ⟨"anchor", "test" :: ((if hasFile then [script.filePath] else []) ++ extra ++ args)⟩
  | .anchorBuild => ⟨"anchor", "build" :: (extra ++ args)⟩
  | .aptosMoveCompile => ⟨"aptos", "move" :: "compile" :: (extra ++ args)⟩
  | .aptosMoveTest =>
      ⟨"aptos", "move" :: "test" :: ((if hasFile then ["--filter", script.filePath] else []) ++ extra ++ args)⟩
  | .aptosMovePublish => ⟨"aptos", "move" :: "publish" :: (extra ++ args)⟩

/-- Whether a runner kind is invoked through the platform shell (its flags
end up inside a single command string rather than as separate argv
entries). -/
def shell_runner : ScriptRunner → Bool
  | .bash => true
  | .custom => true
  | _ => false

/-- For every non-shell runner kind, the argv produced by `build_command`
is a fixed base part followed by the rendered flag tokens; this is that
base part. -/
def argv_base (script : Script) : List String :=
  let extra := extra_args script
  let hasFile := script.filePath ≠ "" && script.filePath ≠ "."
  match script.runner with
  | .bash => []
  | .node => [script.filePath]
  | .bun => ["run", script.filePath]
  | .python => [script.filePath]
  | .npx => [script.filePath]
  | .custom => []
  | .forge => "script" :: script.filePath :: extra
  | .forgeTest => "test" :: ((if hasFile then ["--match-path", script.filePath] else []) ++ extra)
  | .forgeBuild => "build" :: extra
  | .hardhat => "hardhat" :: "run" :: script.filePath :: extra
  | .hardhatTest => "hardhat" :: "test" :: ((if hasFile then [script.filePath] else []) ++ extra)
  | .hardhatCompile => "hardhat" :: "compile" :: extra
  | .anchor => "run" :: ((if hasFile then [script.filePath] else []) ++ extra)
  | .anchorTest => "test" :: ((if hasFile then [script.filePath] else []) ++ extra)
  | .anchorBuild => "build" :: extra
  | .aptosMoveCompile => "move" :: "compile" :: extra
  | .aptosMoveTest => "move" :: "test" :: ((if hasFile then ["--filter", script.filePath] else []) ++ extra)
  | .aptosMovePublish => "move" :: "publish" :: extra

/-!
## RunService execution engine state
-/

/-- First-match association-list lookup, the model of `HashMap::get`. -/
def alookup {α : Type} (m : List (String × α)) (k : String) : Option α :=
  match m with
  | [] => none
  | p :: rest => if p.1 = k then some p.2 else alookup rest k

/-- The exit status the child's `wait` eventually reports:
`success` mirrors `ExitStatus::success()` and `code` mirrors
`ExitStatus::code()` (which is `None` for signal-killed processes). -/
structure ExitStatus where
  success : Bool
  code : Option Int
deriving DecidableEq, Repr

/-- Struct `Run` from `types/mod.rs`. -/
structure Run where
  id : String
  workspaceId : String
  runType : RunType
  status : RunStatus
  startedAt : Nat
  endedAt : Option Nat
  exitCode : Option Int
  errorMessage : Option String
deriving DecidableEq, Repr

/-- A row of the `runs` table (statuses are stored as strings, exactly the
strings the service binds in its SQL statements). -/
structure DbRun where
  id : String
  workspaceId : String
  runType : String
  status : String
  exitCode : Option Int
  errorMessage : Option String
  startedAt : Nat
  endedAt : Option Nat
deriving DecidableEq, Repr

/-- The full state touched by `RunService`: the `runs` and `run_logs`
tables, and the three in-memory maps `active_runs`, `run_logs` and
`active_processes`.  `pendingCompletion` is a ghost field recording the
run ids whose completion task was spawned and has not yet executed. -/
structure EngineState where
  dbRuns : List DbRun
  dbLogs : List (String × String × Nat)
  activeRuns : List (String × Run)
  runLogs : List (String × List String)
  procs : List (String × ExitStatus)
  pendingCompletion : List String
deriving DecidableEq, Repr

/-- The empty engine state (`RunService::new`). -/
def initEngine : EngineState := ⟨[], [], [], [], [], []⟩

/-- Operation `create_run` from `run_service.rs`: insert a `running` row with no
`ended_at`/`exit_code`, and cache the same record in `active_runs`. -/
def create_run (s : EngineState) (id ws : String) (rt : RunType) (now : Nat) :
    EngineState × Run :=
  let run : Run :=
    ⟨id, ws, rt, .running, now, none, none, none⟩
  let row : DbRun :=
    ⟨id, ws, run_type_to_string rt, "running", none, none, now, none⟩
  ({ s with
      dbRuns := s.dbRuns ++ [row],
      activeRuns := (id, run) :: s.activeRuns.filter (fun p => p.1 ≠ id) },
   run)

/-- The synchronous part of `execute_command` from `run_service.rs`:
reject an empty command, attempt the spawn, and on success register the
process handle, initialize the in-memory log buffer, and schedule the
reader/completion tasks. -/
def execute_command (s : EngineState) (runId : String) (cmd : List String)
    (spawn : Option ExitStatus) : EngineState × Except CocoError Unit :=
  if cmd = [] then (s, .error (.process "Empty command"))
  else
    match spawn with
    | none => (s, .error (.process "Failed to spawn process"))
    | some es =>
        ({ s with
            procs := (runId, es) :: s.procs.filter (fun p => p.1 ≠ runId),
            runLogs := (runId, []) :: s.runLogs.filter (fun p => p.1 ≠ runId),
            pendingCompletion := runId :: s.pendingCompletion },
         .ok ())

/-- Operation `start_build` from `run_service.rs`: create the run record first, then
resolve the build command, then spawn.  Errors are propagated to the
caller, but the state mutations already performed (the inserted run record)
remain. -/
def start_build (s : EngineState) (id ws : String) (m : Markers)
    (spawn : Option ExitStatus) (now : Nat) : EngineState × Except CocoError Run :=
  let c := create_run s id ws .build now
  match get_build_command m with
  | .error e => (c.1, .error e)
  | .ok cmd =>
      let x := execute_command c.1 id cmd spawn
      (x.1,
        match x.2 with
        | .error e => .error e
        | .ok _ => .ok c.2)

/-- Operation `start_test` from `run_service.rs`. -/
def start_test (s : EngineState) (id ws : String) (m : Markers)
    (spawn : Option ExitStatus) (now : Nat) : EngineState × Except CocoError Run :=
  let c := create_run s id ws .test now
  match get_test_command m with
  | .error e => (c.1, .error e)
  | .ok cmd =>
      let x := execute_command c.1 id cmd spawn
      (x.1,
        match x.2 with
        | .error e => .error e
        | .ok _ => .ok c.2)

/-- Operation `start_deploy` from `run_service.rs`. -/
def start_deploy (s : EngineState) (id ws sp : String) (m : Markers)
    (spawn : Option ExitStatus) (now : Nat) : EngineState × Except CocoError Run :=
  let c := create_run s id ws .deploy now
  match get_deploy_command m sp with
  | .error e => (c.1, .error e)
  | .ok cmd =>
      let x := execute_command c.1 id cmd spawn
      (x.1,
        match x.2 with
        | .error e => .error e
        | .ok _ => .ok c.2)

/-- The database and in-memory updates performed by `cancel_run` after the
kill: set the row's status to `"cancelled"` with an `ended_at`, and patch
the cached record the same way if present. -/
def apply_cancel_updates (s : EngineState) (runId : String) (now : Nat) : EngineState :=
  { s with
      dbRuns := s.dbRuns.map fun r =>
        if r.id = runId then { r with status := "cancelled", endedAt := some now } else r,
      activeRuns := s.activeRuns.map fun p =>
        if p.1 = runId then
          (p.1, { p.2 with status := RunStatus.cancelled, endedAt := some now })
        else p }

/-- Operation `cancel_run` from `run_service.rs`: remove the process handle if one
exists and kill it (a kill failure aborts with a Process error after the
handle was already removed); then unconditionally mark the run cancelled in
the store and the cache, returning `Ok` whether or not any active process
existed. -/
def cancel_run (s : EngineState) (runId : String) (killOk : Bool) (now : Nat) :
    EngineState × Except CocoError Unit :=
  match alookup s.procs runId with
  | some _ =>
      let s1 := { s with procs := s.procs.filter (fun p => p.1 ≠ runId) }
      if killOk then (apply_cancel_updates s1 runId now, .ok ())
      else (s1, .error (.process "Failed to kill process"))
  | none => (apply_cancel_updates s runId now, .ok ())

/-- Number a list of log lines starting at `k`, the model of
`iter().enumerate()` in the completion task's persistence loop. -/
def number_from (k : Nat) : List String → List (String × Nat)
  | [] => []
  | l :: ls => (l, k) :: number_from (k + 1) ls

/-- The body of the completion task spawned by `execute_command`: take the
process handle back out of the map (the handle may already be gone if
cancellation took it first, in which case `wait` is skipped and the outcome
defaults to Failed with no exit code), write the terminal status to the
`runs` table, persist the accumulated log lines with their order, and patch
the in-memory cache.  Guarded by `pendingCompletion`: it can only run for a
run whose spawn succeeded, and it runs once.

`exit_to_status` is the status half of the source's
`match exit_status { Some(es) => ..., None => (Failed, None) }`. -/
def exit_to_status : Option ExitStatus → RunStatus
  | some es => if es.success then .success else .failed
  | none => .failed

/-- The exit-code half of the same match: the process's exit code when it
was actually waited on, `none` otherwise. -/
def exit_to_code : Option ExitStatus → Option Int
  | some es => es.code
  | none => none

def complete_run (s : EngineState) (runId : String) (now : Nat) : EngineState :=
  if runId ∈ s.pendingCompletion then
    { s with
        procs := s.procs.filter (fun p => p.1 ≠ runId),
        pendingCompletion := s.pendingCompletion.filter (· ≠ runId),
        dbRuns := s.dbRuns.map fun r =>
          if r.id = runId then
            { r with
                status := run_status_to_string (exit_to_status (alookup s.procs runId)),
                exitCode := exit_to_code (alookup s.procs runId),
                endedAt := some now }
          else r,
        dbLogs := s.dbLogs ++
          (number_from 0 ((alookup s.runLogs runId).getD [])).map (fun q => (runId, q.1, q.2)),
        activeRuns := s.activeRuns.map fun p =>
          if p.1 = runId then
            (p.1, { p.2 with
                      status := exit_to_status (alookup s.procs runId),
                      exitCode := exit_to_code (alookup s.procs runId),
                      endedAt := some now })
          else p }
  else s

/-- The body of the stdout reader task: append the line to the in-memory
buffer for the run, if the buffer still exists. -/
def push_stdout (s : EngineState) (runId line : String) : EngineState :=
  { s with
      runLogs := s.runLogs.map fun p =>
        if p.1 = runId then (p.1, p.2 ++ [line]) else p }

/-- The body of the stderr reader task: like stdout, but each line is
labelled with the `[stderr] ` marker before being appended. -/
def push_stderr (s : EngineState) (runId line : String) : EngineState :=
  push_stdout s runId ("[stderr] " ++ line)

/-- The delayed cleanup task: evict the in-memory log buffer after the
retention window. -/
def evict_logs (s : EngineState) (runId : String) : EngineState :=
  { s with runLogs := s.runLogs.filter (fun p => p.1 ≠ runId) }

/-- Insertion into a list sorted by the numeric key. -/
def insert_by_order (x : String × Nat) : List (String × Nat) → List (String × Nat)
  | [] => [x]
  | y :: ys => if x.2 ≤ y.2 then x :: y :: ys else y :: insert_by_order x ys

/-- Sorting by the numeric key, the model of `ORDER BY log_order`. -/
def sort_by_order : List (String × Nat) → List (String × Nat)
  | [] => []
  | x :: xs => insert_by_order x (sort_by_order xs)

/-- The `run_logs` database query of `get_run_logs`:
`SELECT line FROM run_logs WHERE run_id = ? ORDER BY log_order`. -/
def db_query_logs (db : List (String × String × Nat)) (runId : String) : List String :=
  (sort_by_order ((db.filter (fun t => t.1 = runId)).map (fun t => (t.2.1, t.2.2)))).map (·.1)

/-- Query `get_run_logs` from `run_service.rs`: serve the in-memory buffer when
it is still retained, otherwise fall back to the durable `run_logs`
table. -/
def get_run_logs (s : EngineState) (runId : String) : Except CocoError (List String) :=
  match alookup s.runLogs runId with
  | some cached => .ok cached
  | none => .ok (db_query_logs s.dbLogs runId)

/-- The observable transitions of the RunService engine: the public start
and cancel operations, and the bodies of the asynchronous tasks spawned by
`execute_command` (stdout/stderr reader iterations, the completion task,
the log-retention cleanup). -/
inductive Event where
  | startBuild (id ws : String) (m : Markers) (spawn : Option ExitStatus) (now : Nat)
  | startTest (id ws : String) (m : Markers) (spawn : Option ExitStatus) (now : Nat)
  | startDeploy (id ws sp : String) (m : Markers) (spawn : Option ExitStatus) (now : Nat)
  | cancel (id : String) (killOk : Bool) (now : Nat)
  | complete (id : String) (now : Nat)
  | outLine (id line : String)
  | errLine (id line : String)
  | evict (id : String)
deriving DecidableEq, Repr

/-- The state transition for one event. -/
def step (s : EngineState) : Event → EngineState
  | .startBuild id ws m spawn now => (start_build s id ws m spawn now).1
  | .startTest id ws m spawn now => (start_test s id ws m spawn now).1
  | .startDeploy id ws sp m spawn now => (start_deploy s id ws sp m spawn now).1
  | .cancel id killOk now => (cancel_run s id killOk now).1
  | .complete id now => complete_run s id now
  | .outLine id line => push_stdout s id line
  | .errLine id line => push_stderr s id line
  | .evict id => evict_logs s id

/-- The run id a start event would create a record under, if any. -/
def startsId : Event → Option String
  | .startBuild id _ _ _ _ => some id
  | .startTest id _ _ _ _ => some id
  | .startDeploy id _ _ _ _ _ => some id
  | _ => none

/-!
## ScriptService execution state
-/

/-- A row of the `script_runs` table. -/
structure ScriptRunRow where
  id : String
  scriptId : String
  startedAt : Nat
  finishedAt : Option Nat
  status : String
  exitCode : Option Int
  logs : String
deriving DecidableEq, Repr

/-- Struct `ScriptRun` from `types/mod.rs` (fields used by the engine). -/
structure ScriptRun where
  id : String
  scriptId : String
  startedAt : Nat
  finishedAt : Option Nat
  status : ScriptRunStatus
  exitCode : Option Int
  logs : Option String
deriving DecidableEq, Repr

/-- The state touched by `ScriptService` script execution: the
`script_runs` table, the `active_runs` map of one-shot cancellation
senders, plus two ghost fields: `tasks` records run ids whose background
`select!` task is still pending, and `signalled` records run ids whose
cancellation sender has been fired. -/
structure ScriptState where
  dbRuns : List ScriptRunRow
  active : List String
  tasks : List String
  signalled : List String
deriving DecidableEq, Repr

/-- The empty script-service state. -/
def initScriptState : ScriptState := ⟨[], [], [], []⟩

/-- The required-flag validation loop at the top of `start_script` and
`execute_script`: the first declared flag that is required but absent from
the supplied mapping produces the Validation error. -/
def missing_required_flag (script : Script) (flags : List (String × String)) :
    Option ScriptFlag :=
  script.flags.find? fun f => f.required && (alookup flags f.flagName).isNone

/-- Operation `start_script` from `script_service.rs`: validate required flags
before anything is written; insert the `running` row; build the command;
spawn (a spawn failure leaves the inserted row behind and reports a Process
error; the cancellation sender is only registered after a successful
spawn); on success register the sender and the background `select!`
task. -/
def start_script (s : ScriptState) (script : Script) (runId : String)
    (flags : List (String × String)) (spawnOk : Bool) (now : Nat) :
    ScriptState × Except CocoError ScriptRun :=
  match missing_required_flag script flags with
  | some f => (s, .error (.validation ("Required flag missing: " ++ f.flagName)))
  | none =>
      let row : ScriptRunRow := ⟨runId, script.id, now, none, "running", none, ""⟩
      let s1 := { s with dbRuns := s.dbRuns ++ [row] }
      if spawnOk then
        ({ s1 with
            active := runId :: s1.active.filter (· ≠ runId),
            tasks := runId :: s1.tasks },
         .ok ⟨runId, script.id, now, none, .running, none, some ""⟩)
      else (s1, .error (.process "Failed to spawn script"))

/-- Operation `cancel_script` from `script_service.rs`: remove the cancellation
sender and fire it; if no sender exists (run finished, already cancelled,
or never existed) report NotFound — "No active process for run". -/
def cancel_script (s : ScriptState) (runId : String) :
    ScriptState × Except CocoError Unit :=
  if runId ∈ s.active then
    ({ s with
        active := s.active.filter (· ≠ runId),
        signalled := runId :: s.signalled },
     .ok ())
  else (s, .error (.notFound ("No active process for run: " ++ runId)))

/-- The `child.wait()` branch of the background `select!` in
`start_script`: write the exit-derived terminal status and `finished_at`,
then drop the run from the active map.  Guarded by the pending-task ghost:
each background task fires exactly one branch, once. -/
def script_complete_branch (s : ScriptState) (runId : String) (es : ExitStatus)
    (now : Nat) : ScriptState :=
  if runId ∈ s.tasks then
    { s with
        dbRuns := s.dbRuns.map fun r =>
          if r.id = runId then
            { r with
                status := if es.success then "success" else "failed",
                exitCode := es.code,
                finishedAt := some now }
          else r,
        tasks := s.tasks.filter (· ≠ runId),
        active := s.active.filter (· ≠ runId) }
  else s

/-- The `cancel_rx` branch of the background `select!` in `start_script`:
kill the child, mark the run cancelled with a `finished_at` and a
cancellation note appended to its logs, then drop it from the active map.
It can only fire once the sender has actually been fired. -/
def script_cancel_branch (s : ScriptState) (runId : String) (now : Nat) : ScriptState :=
  if runId ∈ s.tasks ∧ runId ∈ s.signalled then
    { s with
        dbRuns := s.dbRuns.map fun r =>
          if r.id = runId then
            { r with
                status := "cancelled",
                finishedAt := some now,
                logs := r.logs ++ "\n[cancelled] Script was cancelled by user\n" }
          else r,
        tasks := s.tasks.filter (· ≠ runId),
        active := s.active.filter (· ≠ runId) }
  else s

/-- The observable transitions of the ScriptService execution engine: the
public start and cancel operations and the two branches of the background
`select!` task. -/
inductive ScriptEvent where
  | start (script : Script) (runId : String) (flags : List (String × String))
      (spawnOk : Bool) (now : Nat)
  | cancel (runId : String)
  | completeBranch (runId : String) (es : ExitStatus) (now : Nat)
  | cancelBranch (runId : String) (now : Nat)
deriving Repr

/-- The script-service state transition for one event. -/
def script_step (s : ScriptState) : ScriptEvent → ScriptState
  | .start script runId flags spawnOk now => (start_script s script runId flags spawnOk now).1
  | .cancel runId => (cancel_script s runId).1
  | .completeBranch runId es now => script_complete_branch s runId es now
  | .cancelBranch runId now => script_cancel_branch s runId now

/-- The run id a script start event would create a record under, if any. -/
def script_starts_id : ScriptEvent → Option String
  | .start _ runId _ _ _ => some runId
  | _ => none

/-!
## Stream interleaving model for log ordering
-/

/-- One captured unit of child output: a line read by the stdout reader
task or by the stderr reader task. -/
inductive StreamEv where
  | out (line : String)
  | err (line : String)
deriving DecidableEq, Repr

/-- Execute one reader-task iteration against the engine state. -/
def ev_step (r : String) (s : EngineState) : StreamEv → EngineState
  | .out l => push_stdout s r l
  | .err l => push_stderr s r l

/-- Execute a whole interleaved schedule of reader-task iterations. -/
def run_stream (s : EngineState) (r : String) (t : List StreamEv) : EngineState :=
  t.foldl (ev_step r) s

/-- The log line an event contributes to the shared buffer: stdout lines
verbatim, stderr lines carrying the `[stderr] ` marker. -/
def render_ev : StreamEv → String
  | .out l => l
  | .err l => "[stderr] " ++ l

/-- The stdout lines of a schedule, in emission order. -/
def outs_of (t : List StreamEv) : List String :=
  t.filterMap fun e =>
    match e with
    | .out l => some l
    | .err _ => none

/-!
## Invariant definitions
-/

/-- The §3 invariant on a `runs` row: `ended_at` is set exactly when the
stored status is terminal. -/
def db_row_ok (r : DbRun) : Prop :=
  r.endedAt.isSome = true ↔
    (r.status = "success" ∨ r.status = "failed" ∨ r.status = "cancelled")

/-- The §3 invariant on a cached `Run`: `ended_at` is set exactly when the
status is terminal (anything other than `Running`). -/
def mem_run_ok (r : Run) : Prop :=
  r.endedAt.isSome = true ↔ r.status ≠ RunStatus.running

/-- The engine-wide `ended_at` invariant: it holds for every durable row
and every cached run record. -/
def engine_inv (s : EngineState) : Prop :=
  (∀ r ∈ s.dbRuns, db_row_ok r) ∧ (∀ p ∈ s.activeRuns, mem_run_ok p.2)

/-- After a failed spawn, the state of a run id: its rows are still
`running` (or `cancelled` after an explicit cancel) and no completion task
was ever scheduled for it. -/
def spawn_failed_inv (s : EngineState) (id : String) : Prop :=
  (∀ r ∈ s.dbRuns, r.id = id → (r.status = "running" ∨ r.status = "cancelled")) ∧
  id ∉ s.pendingCompletion

/-- After a failed script spawn, the state of a script-run id: its rows
are still `running` and no background `select!` task exists for it (so
neither branch can ever write a terminal status for it; `cancel_script`
on it only reports NotFound). -/
def script_spawn_failed_inv (s : ScriptState) (id : String) : Prop :=
  (∀ r ∈ s.dbRuns, r.id = id → r.status = "running") ∧ id ∉ s.tasks

/-!
# Helper lemmas
-/

theorem alookup_filter_none {α : Type} (l : List (String × α)) (k : String)
    (q : String × α → Bool) (hq : ∀ p, p.1 = k → q p = false) :
    alookup (l.filter q) k = none := by
  induction l with
  | nil => rfl
  | cons p rest ih =>
      by_cases h : p.1 = k
      · simpa [List.filter_cons, hq p h] using ih
      · cases hqp : q p
        · simpa [List.filter_cons, hqp] using ih
        · simpa [List.filter_cons, hqp, alookup, h] using ih

theorem not_mem_filter_ne_self (l : List String) (k : String) :
    k ∉ l.filter (· ≠ k) := by
  simp [List.mem_filter]

theorem alookup_map_update {α : Type} (l : List (String × α)) (k : String) (f : α → α) :
    alookup (l.map fun p => if p.1 = k then (p.1, f p.2) else p) k =
      (alookup l k).map f := by
  induction l with
  | nil => rfl
  | cons p rest ih =>
      by_cases h : p.1 = k
      · simp [alookup, h]
      · simp [alookup, h, ih]

/-!
# Claim theorems
-/

/-- C10: run statuses round-trip through their persisted string form, for
both `RunStatus` (via `run_status_to_string` / `string_to_run_status`) and
`ScriptRunStatus` (via `status_to_string` and the `&str` conversion), and
any unrecognized status string decodes to `Running`. -/
theorem C10_status_string_roundtrip :
    (∀ st : RunStatus, string_to_run_status (run_status_to_string st) = st) ∧
    (∀ st : ScriptRunStatus, script_run_status_from_str (status_to_string st) = st) ∧
    (∀ s : String, s ≠ "success" → s ≠ "failed" → s ≠ "cancelled" →
      string_to_run_status s = RunStatus.running) ∧
    (∀ s : String, str_to_lower s ≠ "success" → str_to_lower s ≠ "failed" →
      str_to_lower s ≠ "cancelled" → script_run_status_from_str s = ScriptRunStatus.running) := by
  refine ⟨?_, ?_, ?_, ?_⟩
  · intro st; cases st <;> rfl
  · intro st; cases st <;> rfl
  · intro s h1 h2 h3; simp [string_to_run_status, h1, h2, h3]
  · intro s h1 h2 h3; simp [script_run_status_from_str, h1, h2, h3]

/-- Witness for C10 at concrete unrecognized strings. -/
theorem C10_status_string_roundtrip_witness :
    string_to_run_status "bogus" = RunStatus.running ∧
    script_run_status_from_str "BoGus" = ScriptRunStatus.running :=
  ⟨C10_status_string_roundtrip.2.2.1 "bogus" (by decide) (by decide) (by decide),
   C10_status_string_roundtrip.2.2.2 "BoGus" (by decide) (by decide) (by decide)⟩

/-- C7: for each of the three logical actions, the resolver probes the
markers in the fixed priority order `foundry.toml`, `Anchor.toml`,
`Move.toml`, `hardhat.config.js/ts`; the first marker present selects that
framework's fixed argv (later markers are ignored), and with no marker
present every action resolves to the Validation error. -/
theorem C7_resolver_priority (m : Markers) (sp : String) :
    (m.foundryToml = true →
      get_build_command m = .ok ["forge", "build"] ∧
      get_test_command m = .ok ["forge", "test", "-vvv"] ∧
      get_deploy_command m sp = .ok ["forge", "script", sp, "--broadcast"]) ∧
    (m.foundryToml = false → m.anchorToml = true →
      get_build_command m = .ok ["anchor", "build"] ∧
      get_test_command m = .ok ["anchor", "test"] ∧
      get_deploy_command m sp = .ok ["anchor", "deploy"]) ∧
    (m.foundryToml = false → m.anchorToml = false → m.moveToml = true →
      get_build_command m = .ok ["aptos", "move", "compile"] ∧
      get_test_command m = .ok ["aptos", "move", "test"] ∧
      get_deploy_command m sp = .ok ["aptos", "move", "publish"]) ∧
    (m.foundryToml = false → m.anchorToml = false → m.moveToml = false →
      (m.hardhatConfigJs = true ∨ m.hardhatConfigTs = true) →
      get_build_command m = .ok ["npx", "hardhat", "compile"] ∧
      get_test_command m = .ok ["npx", "hardhat", "test"] ∧
      get_deploy_command m sp = .ok ["npx", "hardhat", "run", sp]) ∧
    (m.foundryToml = false → m.anchorToml = false → m.moveToml = false →
      m.hardhatConfigJs = false → m.hardhatConfigTs = false →
      get_build_command m = .error (.validation "Unknown project framework") ∧
      get_test_command m = .error (.validation "Unknown project framework") ∧
      get_deploy_command m sp = .error (.validation "Unknown project framework")) := by
  refine ⟨?_, ?_, ?_, ?_, ?_⟩
  · intro h1
    exact ⟨by simp [get_build_command, h1], by simp [get_test_command, h1],
      by simp [get_deploy_command, h1]⟩
  · intro h1 h2
    exact ⟨by simp [get_build_command, h1, h2], by simp [get_test_command, h1, h2],
      by simp [get_deploy_command, h1, h2]⟩
  · intro h1 h2 h3
    exact ⟨by simp [get_build_command, h1, h2, h3], by simp [get_test_command, h1, h2, h3],
      by simp [get_deploy_command, h1, h2, h3]⟩
  · intro h1 h2 h3 h4
    rcases h4 with h4 | h4
    · exact ⟨by simp [get_build_command, h1, h2, h3, h4],
        by simp [get_test_command, h1, h2, h3, h4],
        by simp [get_deploy_command, h1, h2, h3, h4]⟩
    · exact ⟨by simp [get_build_command, h1, h2, h3, h4],
        by simp [get_test_command, h1, h2, h3, h4],
        by simp [get_deploy_command, h1, h2, h3, h4]⟩
  · intro h1 h2 h3 h4 h5
    exact ⟨by simp [get_build_command, h1, h2, h3, h4, h5],
      by simp [get_test_command, h1, h2, h3, h4, h5],
      by simp [get_deploy_command, h1, h2, h3, h4, h5]⟩

/-- Witness for C7: a directory carrying both the Anchor and the Move
markers resolves by priority to Anchor, and an empty directory is a
Validation error. -/
theorem C7_resolver_priority_witness :
    get_build_command ⟨false, true, true, false, false⟩ = .ok ["anchor", "build"] ∧
    get_test_command ⟨false, false, false, false, false⟩ =
      .error (.validation "Unknown project framework") :=
  ⟨((C7_resolver_priority ⟨false, true, true, false, false⟩ "s").2.1 rfl rfl).1,
   ((C7_resolver_priority ⟨false, false, false, false, false⟩ "s").2.2.2.2
      rfl rfl rfl rfl rfl).2.1⟩

theorem flag_args_append (script : Script) (a b : List (String × String)) :
    flag_args script (a ++ b) = flag_args script a ++ flag_args script b := by
  simp [flag_args]

theorem flag_args_cons (script : Script) (p : String × String)
    (rest : List (String × String)) :
    flag_args script (p :: rest) = render_flag script p ++ flag_args script rest := by
  simp [flag_args]

theorem flag_args_tokens (script : Script) (m : List (String × String)) :
    ∀ tok ∈ flag_args script m, ∃ p ∈ m, tok = p.1 ∨ tok = p.2 := by
  induction m with
  | nil => intro tok h; simp [flag_args] at h
  | cons p rest ih =>
      intro tok h
      rw [flag_args_cons] at h
      rcases List.mem_append.mp h with h | h
      · refine ⟨p, by simp, ?_⟩
        unfold render_flag at h
        split at h
        · split at h
          · simp at h; exact Or.inl h
          · simp at h
        · simp at h
          rcases h with h | h
          · exact Or.inl h
          · exact Or.inr h
      · rcases ih tok h with ⟨q, hq, hq2⟩
        exact ⟨q, by simp [hq], hq2⟩

theorem build_command_args_decomp (script : Script) (m : List (String × String))
    (h : shell_runner script.runner = false) :
    (build_command script m).args = argv_base script ++ flag_args script m := by
  rcases script with ⟨id, ws, runner, fp, cmd, wd, fl⟩
  cases runner <;> simp_all [build_command, argv_base, shell_runner]

/-- C6: `build_command` renders each mapping entry according to its
declared type — a declared boolean flag yields the bare flag-name token
exactly when the value is the literal string `"true"` and nothing
otherwise, every other declared type yields the two tokens name-then-value,
every token of the rendered flag arguments originates from some mapping
entry (so declared flags absent from the mapping produce no tokens and no
defaults are injected), and for every non-shell runner kind the argv is the
fixed base followed by exactly these flag tokens. -/
theorem C6_flag_rendering (script : Script) (m m1 m2 : List (String × String)) (n v : String) :
    ((script.flags.find? fun f => f.flagName = n).map (·.flagType) =
        some ScriptFlagType.boolean →
      (v = "true" → flag_args script (m1 ++ (n, v) :: m2) =
        flag_args script m1 ++ n :: flag_args script m2) ∧
      (v ≠ "true" → flag_args script (m1 ++ (n, v) :: m2) =
        flag_args script m1 ++ flag_args script m2)) ∧
    (∀ t, (script.flags.find? fun f => f.flagName = n).map (·.flagType) = some t →
      t ≠ ScriptFlagType.boolean →
      flag_args script (m1 ++ (n, v) :: m2) =
        flag_args script m1 ++ n :: v :: flag_args script m2) ∧
    (∀ tok ∈ flag_args script m, ∃ p ∈ m, tok = p.1 ∨ tok = p.2) ∧
    (shell_runner script.runner = false →
      (build_command script m).args = argv_base script ++ flag_args script m) := by
  refine ⟨?_, ?_, flag_args_tokens script m, build_command_args_decomp script m⟩
  · intro h
    constructor
    · intro hv
      subst hv
      simp [flag_args_append, flag_args_cons, render_flag, h]
    · intro hv
      simp [flag_args_append, flag_args_cons, render_flag, h, hv]
  · intro t ht hne
    have : ¬((script.flags.find? fun f => f.flagName = n).map (·.flagType) =
        some ScriptFlagType.boolean) := by
      rw [ht]; simp; intro hc; exact hne hc
    simp [flag_args_append, flag_args_cons, render_flag, this]

/-- Witness for C6: a script declaring a boolean flag `--verbose` and a
string flag `--out`, with both supplied: the boolean renders as a bare
switch, the string as name and value, and the node argv carries exactly
those tokens. -/
theorem C6_flag_rendering_witness :
    flag_args
        ⟨"s1", "w1", ScriptRunner.node, "f.js", none, none,
          [⟨"--verbose", ScriptFlagType.boolean, none, false⟩,
           ⟨"--out", ScriptFlagType.string, none, false⟩]⟩
        [("--verbose", "true"), ("--out", "a.txt")] =
      ["--verbose", "--out", "a.txt"] ∧
    (build_command
        ⟨"s1", "w1", ScriptRunner.node, "f.js", none, none,
          [⟨"--verbose", ScriptFlagType.boolean, none, false⟩,
           ⟨"--out", ScriptFlagType.string, none, false⟩]⟩
        [("--verbose", "true"), ("--out", "a.txt")]).args =
      ["f.js", "--verbose", "--out", "a.txt"] := by
  constructor
  · have h :=
      ((C6_flag_rendering
        ⟨"s1", "w1", ScriptRunner.node, "f.js", none, none,
          [⟨"--verbose", ScriptFlagType.boolean, none, false⟩,
           ⟨"--out", ScriptFlagType.string, none, false⟩]⟩
        [] [] [("--out", "a.txt")] "--verbose" "true").1 (by decide)).1 rfl
    exact h.trans (by decide)
  · have h :=
      (C6_flag_rendering
        ⟨"s1", "w1", ScriptRunner.node, "f.js", none, none,
          [⟨"--verbose", ScriptFlagType.boolean, none, false⟩,
           ⟨"--out", ScriptFlagType.string, none, false⟩]⟩
        [("--verbose", "true"), ("--out", "a.txt")] [] [] "--verbose" "true").2.2.2 (by decide)
    simpa [flag_args, render_flag, argv_base, extra_args] using h

/-- C9: a flag name supplied in the mapping but not declared among the
script's flags is not rejected or omitted by `build_command`: it renders as
the two tokens name-then-value, exactly like a non-boolean declared flag,
and (for non-shell runners) those tokens land in the argv. -/
theorem C9_undeclared_flag_rendering (script : Script) (m1 m2 : List (String × String))
    (n v : String) (h : ∀ f ∈ script.flags, f.flagName ≠ n) :
    flag_args script (m1 ++ (n, v) :: m2) =
      flag_args script m1 ++ n :: v :: flag_args script m2 ∧
    (shell_runner script.runner = false →
      (build_command script (m1 ++ (n, v) :: m2)).args =
        argv_base script ++ (flag_args script m1 ++ n :: v :: flag_args script m2)) := by
  have hf : (script.flags.find? fun f => f.flagName = n) = none := by
    rw [List.find?_eq_none]
    intro f hfmem
    simp [h f hfmem]
  have hmain : flag_args script (m1 ++ (n, v) :: m2) =
      flag_args script m1 ++ n :: v :: flag_args script m2 := by
    simp [flag_args_append, flag_args_cons, render_flag, hf]
  refine ⟨hmain, fun hs => ?_⟩
  rw [build_command_args_decomp script _ hs, hmain]

/-- Witness for C9: an undeclared flag `--foo bar` supplied to a script
with no declared flags renders as the two tokens. -/
theorem C9_undeclared_flag_rendering_witness :
    flag_args ⟨"s1", "w1", ScriptRunner.python, "f.py", none, none, []⟩
        [("--foo", "bar")] = ["--foo", "bar"] := by
  have h :=
    (C9_undeclared_flag_rendering ⟨"s1", "w1", ScriptRunner.python, "f.py", none, none, []⟩
      [] [] "--foo" "bar" (by simp)).1
  simpa [flag_args] using h

/-- C2 counterexample: starting a build in a directory with no recognized
framework marker does return the Validation error synchronously, but a run
record (status `running`) has already been created in the durable store by
then, because `start_build` inserts the record before resolving the
command — contradicting "no run record is created". -/
theorem C2_counterexample :
    (start_build initEngine "r1" "ws1" ⟨false, false, false, false, false⟩ none 0).2 =
      .error (.validation "Unknown project framework") ∧
    (start_build initEngine "r1" "ws1" ⟨false, false, false, false, false⟩ none 0).1.dbRuns.map
        DbRun.id = ["r1"] :=
  ⟨rfl, rfl⟩

/-- C2 amended: for script starts the Validation error (required flag
missing) is returned synchronously before any write or spawn, leaving the
state unchanged — no run record is created; for build/test/deploy starts
the Validation error (no recognized marker) is likewise returned before any
process is spawned (no handle, no completion task), but the Running run
record has already been inserted into the durable store. -/
theorem C2_validation_amended :
    (∀ (ss : ScriptState) (script : Script) (runId : String)
        (flags : List (String × String)) (spawnOk : Bool) (now : Nat) (f : ScriptFlag),
      missing_required_flag script flags = some f →
      start_script ss script runId flags spawnOk now =
        (ss, .error (.validation ("Required flag missing: " ++ f.flagName)))) ∧
    (∀ (s : EngineState) (id ws : String) (m : Markers) (spawn : Option ExitStatus)
        (now : Nat) (e : CocoError),
      get_build_command m = .error e →
      (start_build s id ws m spawn now).2 = .error e ∧
      (start_build s id ws m spawn now).1.dbRuns =
        s.dbRuns ++ [⟨id, ws, "build", "running", none, none, now, none⟩] ∧
      (start_build s id ws m spawn now).1.procs = s.procs ∧
      (start_build s id ws m spawn now).1.pendingCompletion = s.pendingCompletion) ∧
    (∀ (s : EngineState) (id ws : String) (m : Markers) (spawn : Option ExitStatus)
        (now : Nat) (e : CocoError),
      get_test_command m = .error e →
      (start_test s id ws m spawn now).2 = .error e ∧
      (start_test s id ws m spawn now).1.dbRuns =
        s.dbRuns ++ [⟨id, ws, "test", "running", none, none, now, none⟩] ∧
      (start_test s id ws m spawn now).1.procs = s.procs ∧
      (start_test s id ws m spawn now).1.pendingCompletion = s.pendingCompletion) ∧
    (∀ (s : EngineState) (id ws sp : String) (m : Markers) (spawn : Option ExitStatus)
        (now : Nat) (e : CocoError),
      get_deploy_command m sp = .error e →
      (start_deploy s id ws sp m spawn now).2 = .error e ∧
      (start_deploy s id ws sp m spawn now).1.dbRuns =
        s.dbRuns ++ [⟨id, ws, "deploy", "running", none, none, now, none⟩] ∧
      (start_deploy s id ws sp m spawn now).1.procs = s.procs ∧
      (start_deploy s id ws sp m spawn now).1.pendingCompletion = s.pendingCompletion) := by
  refine ⟨?_, ?_, ?_, ?_⟩
  · intro ss script runId flags spawnOk now f h
    simp [start_script, h]
  · intro s id ws m spawn now e h
    refine ⟨?_, ?_, ?_, ?_⟩ <;> simp [start_build, create_run, h, run_type_to_string]
  · intro s id ws m spawn now e h
    refine ⟨?_, ?_, ?_, ?_⟩ <;> simp [start_test, create_run, h, run_type_to_string]
  · intro s id ws sp m spawn now e h
    refine ⟨?_, ?_, ?_, ?_⟩ <;> simp [start_deploy, create_run, h, run_type_to_string]

/-- Witness for C2 amended: end-to-end scenario 2 — a script with one
required boolean flag `--verbose` not supplied fails with the Validation
error and creates no run record — and concrete no-marker test and deploy
starts that return the Validation error yet leave a Running row behind. -/
theorem C2_validation_amended_witness :
    (start_script initScriptState
        ⟨"s1", "w1", ScriptRunner.bash, "run.sh", none, none,
          [⟨"--verbose", ScriptFlagType.boolean, none, true⟩]⟩
        "r1" [] true 0 =
      (initScriptState, .error (.validation "Required flag missing: --verbose"))) ∧
    (start_test initEngine "r2" "ws1" ⟨false, false, false, false, false⟩ none 0).2 =
      .error (.validation "Unknown project framework") ∧
    (start_deploy initEngine "r3" "ws1" "d.js" ⟨false, false, false, false, false⟩
        none 0).1.dbRuns = [⟨"r3", "ws1", "deploy", "running", none, none, 0, none⟩] :=
  ⟨C2_validation_amended.1 initScriptState
      ⟨"s1", "w1", ScriptRunner.bash, "run.sh", none, none,
        [⟨"--verbose", ScriptFlagType.boolean, none, true⟩]⟩
      "r1" [] true 0 ⟨"--verbose", ScriptFlagType.boolean, none, true⟩ rfl,
   (C2_validation_amended.2.2.1 initEngine "r2" "ws1" ⟨false, false, false, false, false⟩
      none 0 (.validation "Unknown project framework") rfl).1,
   (C2_validation_amended.2.2.2 initEngine "r3" "ws1" "d.js"
      ⟨false, false, false, false, false⟩ none 0
      (.validation "Unknown project framework") rfl).2.1⟩

/-- C3 counterexample: `cancel_run` on a run id with no active process
handle (here: a run that never existed, and a second cancel of the same
run) returns `Ok` — a silent success, not the NotFound error the claim
requires. -/
theorem C3_counterexample :
    (cancel_run initEngine "r1" true 0).2 = .ok () ∧
    (cancel_run
        (cancel_run
          (start_build initEngine "r1" "ws1" ⟨true, false, false, false, false⟩
            (some ⟨true, some 0⟩) 0).1
          "r1" true 1).1
        "r1" true 2).2 = .ok () :=
  ⟨rfl, rfl⟩

/-- C3 amended: only the script engine reports "no active process" —
`cancel_script` returns NotFound whenever no cancellation handle exists
(in particular on a second cancel of the same run id); `cancel_run`
(build/test/deploy) instead returns `Ok` silently when no handle exists,
additionally marking the run cancelled in the store. -/
theorem C3_cancel_amended :
    (∀ (s : EngineState) (id : String) (killOk : Bool) (now : Nat),
      alookup s.procs id = none → (cancel_run s id killOk now).2 = .ok ()) ∧
    (∀ (ss : ScriptState) (id : String), id ∉ ss.active →
      (cancel_script ss id).2 = .error (.notFound ("No active process for run: " ++ id))) ∧
    (∀ (ss : ScriptState) (id : String),
      (cancel_script (cancel_script ss id).1 id).2 =
        .error (.notFound ("No active process for run: " ++ id))) := by
  refine ⟨?_, ?_, ?_⟩
  · intro s id killOk now h
    simp [cancel_run, h]
  · intro ss id h
    simp [cancel_script, h]
  · intro ss id
    by_cases h : id ∈ ss.active
    · simp [cancel_script, h, not_mem_filter_ne_self]
    · simp [cancel_script, h]

/-- Witness for C3 amended at concrete states. -/
theorem C3_cancel_amended_witness :
    (cancel_run initEngine "rx" true 0).2 = .ok () ∧
    (cancel_script initScriptState "rx").2 =
      .error (.notFound ("No active process for run: " ++ "rx")) :=
  ⟨C3_cancel_amended.1 initEngine "rx" true 0 rfl,
   C3_cancel_amended.2.1 initScriptState "rx" (by simp [initScriptState])⟩

theorem apply_cancel_updates_rows (s : EngineState) (id : String) (now : Nat) :
    ∀ r ∈ (apply_cancel_updates s id now).dbRuns, r.id = id → r.status = "cancelled" := by
  intro r hr hid
  simp only [apply_cancel_updates] at hr
  rcases List.mem_map.mp hr with ⟨r0, hr0, hfr⟩
  by_cases h : r0.id = id
  · rw [if_pos h] at hfr
    rw [← hfr]
  · rw [if_neg h] at hfr
    rw [← hfr] at hid
    exact absurd hid h

theorem cancel_run_rows_cancelled (s : EngineState) (id : String) (now : Nat) :
    ∀ r ∈ (cancel_run s id true now).1.dbRuns, r.id = id → r.status = "cancelled" := by
  unfold cancel_run
  cases h : alookup s.procs id with
  | some es => simpa [h] using apply_cancel_updates_rows _ id now
  | none => simpa [h] using apply_cancel_updates_rows s id now

theorem cancel_run_procs_lookup (s : EngineState) (id : String) (killOk : Bool) (now : Nat) :
    alookup (cancel_run s id killOk now).1.procs id = none := by
  unfold cancel_run
  cases h : alookup s.procs id with
  | some es =>
      cases killOk <;>
        simp [h, apply_cancel_updates] <;>
        exact alookup_filter_none _ _ _ (by intro p hp; simp [hp])
  | none => simp [h, apply_cancel_updates]

theorem cancel_run_pending (s : EngineState) (id : String) (killOk : Bool) (now : Nat) :
    (cancel_run s id killOk now).1.pendingCompletion = s.pendingCompletion := by
  unfold cancel_run
  cases h : alookup s.procs id with
  | some es => cases killOk <;> simp [h, apply_cancel_updates]
  | none => simp [h, apply_cancel_updates]

theorem complete_run_rows_failed (s : EngineState) (id : String) (now : Nat)
    (hpend : id ∈ s.pendingCompletion) (hproc : alookup s.procs id = none) :
    ∀ r ∈ (complete_run s id now).dbRuns, r.id = id → r.status = "failed" := by
  intro r hr hid
  simp only [complete_run, if_pos hpend, hproc] at hr
  rcases List.mem_map.mp hr with ⟨r0, hr0, hfr⟩
  by_cases h : r0.id = id
  · rw [if_pos h] at hfr
    rw [← hfr]
    rfl
  · rw [if_neg h] at hfr
    rw [← hfr] at hid
    exact absurd hid h

/-- C4 counterexample: a build run that completes naturally with Success
and is then cancelled ends up recorded as Cancelled — the losing
cancellation path overwrites the already-recorded terminal state instead
of being a no-op. -/
theorem C4_counterexample :
    (complete_run
        (start_build initEngine "r1" "ws1" ⟨true, false, false, false, false⟩
          (some ⟨true, some 0⟩) 0).1
        "r1" 1).dbRuns.map DbRun.status = ["success"] ∧
    (cancel_run
        (complete_run
          (start_build initEngine "r1" "ws1" ⟨true, false, false, false, false⟩
            (some ⟨true, some 0⟩) 0).1
          "r1" 1)
        "r1" true 2).1.dbRuns.map DbRun.status = ["cancelled"] :=
  ⟨rfl, rfl⟩

/-- C4 amended: mutual exclusion holds only for script runs — the
background task fires exactly one `select!` branch, and once a branch has
fired the other is a no-op.  For build/test/deploy runs the two paths are
not exclusive: each write is unconditional, so the later path overwrites
the earlier terminal state (completion after cancellation re-records
Failed; cancellation after completion re-records Cancelled). -/
theorem C4_terminal_state_race :
    (∀ (ss : ScriptState) (id : String) (es : ExitStatus) (now now' : Nat),
      script_cancel_branch (script_complete_branch ss id es now) id now' =
        script_complete_branch ss id es now) ∧
    (∀ (ss : ScriptState) (id : String) (es : ExitStatus) (now now' : Nat),
      id ∈ ss.signalled →
      script_complete_branch (script_cancel_branch ss id now) id es now' =
        script_cancel_branch ss id now) ∧
    (∀ (s : EngineState) (id : String) (killOk : Bool) (now now' : Nat),
      id ∈ s.pendingCompletion →
      ∀ r ∈ (complete_run (cancel_run s id killOk now).1 id now').dbRuns,
        r.id = id → r.status = "failed") ∧
    (∀ (s : EngineState) (id : String) (now now' : Nat),
      ∀ r ∈ (cancel_run (complete_run s id now) id true now').1.dbRuns,
        r.id = id → r.status = "cancelled") := by
  refine ⟨?_, ?_, ?_, ?_⟩
  · intro ss id es now now'
    by_cases h : id ∈ ss.tasks
    · simp [script_complete_branch, h, script_cancel_branch, not_mem_filter_ne_self]
    · simp [script_complete_branch, h, script_cancel_branch]
  · intro ss id es now now' hsig
    by_cases h : id ∈ ss.tasks
    · simp [script_cancel_branch, h, hsig, script_complete_branch, not_mem_filter_ne_self]
    · simp [script_cancel_branch, h, script_complete_branch]
  · intro s id killOk now now' hpend
    exact complete_run_rows_failed _ id now'
      (by rw [cancel_run_pending]; exact hpend)
      (cancel_run_procs_lookup s id killOk now)
  · intro s id now now'
    exact cancel_run_rows_cancelled _ id now'

/-- Witness for C4 amended at a concrete one-run state. -/
theorem C4_terminal_state_race_witness :
    script_complete_branch
        (script_cancel_branch ⟨[⟨"r1", "s1", 0, none, "running", none, ""⟩], [], ["r1"], ["r1"]⟩
          "r1" 1)
        "r1" ⟨true, some 0⟩ 2 =
      script_cancel_branch ⟨[⟨"r1", "s1", 0, none, "running", none, ""⟩], [], ["r1"], ["r1"]⟩
        "r1" 1 :=
  C4_terminal_state_race.2.1 ⟨[⟨"r1", "s1", 0, none, "running", none, ""⟩], [], ["r1"], ["r1"]⟩
    "r1" ⟨true, some 0⟩ 1 2 (by simp)

theorem execute_command_effects (s : EngineState) (runId : String) (cmd : List String)
    (spawn : Option ExitStatus) :
    (execute_command s runId cmd spawn).1.dbRuns = s.dbRuns ∧
    (execute_command s runId cmd spawn).1.activeRuns = s.activeRuns ∧
    (execute_command s runId cmd spawn).1.dbLogs = s.dbLogs ∧
    ((execute_command s runId cmd spawn).1.pendingCompletion = s.pendingCompletion ∨
     (execute_command s runId cmd spawn).1.pendingCompletion = runId :: s.pendingCompletion) := by
  unfold execute_command
  split
  · exact ⟨rfl, rfl, rfl, Or.inl rfl⟩
  · cases spawn
    · exact ⟨rfl, rfl, rfl, Or.inl rfl⟩
    · exact ⟨rfl, rfl, rfl, Or.inr rfl⟩

theorem start_build_effects (s : EngineState) (id ws : String) (m : Markers)
    (spawn : Option ExitStatus) (now : Nat) :
    (start_build s id ws m spawn now).1.dbRuns =
      s.dbRuns ++ [⟨id, ws, "build", "running", none, none, now, none⟩] ∧
    (start_build s id ws m spawn now).1.activeRuns =
      (id, ⟨id, ws, RunType.build, RunStatus.running, now, none, none, none⟩) ::
        s.activeRuns.filter (fun p => p.1 ≠ id) ∧
    ((start_build s id ws m spawn now).1.pendingCompletion = s.pendingCompletion ∨
     (start_build s id ws m spawn now).1.pendingCompletion = id :: s.pendingCompletion) := by
  unfold start_build
  cases hm : get_build_command m with
  | error e => exact ⟨rfl, rfl, Or.inl rfl⟩
  | ok cmd =>
      have he := execute_command_effects (create_run s id ws RunType.build now).1 id cmd spawn
      exact ⟨he.1.trans rfl, he.2.1.trans rfl, he.2.2.2⟩

theorem start_test_effects (s : EngineState) (id ws : String) (m : Markers)
    (spawn : Option ExitStatus) (now : Nat) :
    (start_test s id ws m spawn now).1.dbRuns =
      s.dbRuns ++ [⟨id, ws, "test", "running", none, none, now, none⟩] ∧
    (start_test s id ws m spawn now).1.activeRuns =
      (id, ⟨id, ws, RunType.test, RunStatus.running, now, none, none, none⟩) ::
        s.activeRuns.filter (fun p => p.1 ≠ id) ∧
    ((start_test s id ws m spawn now).1.pendingCompletion = s.pendingCompletion ∨
     (start_test s id ws m spawn now).1.pendingCompletion = id :: s.pendingCompletion) := by
  unfold start_test
  cases hm : get_test_command m with
  | error e => exact ⟨rfl, rfl, Or.inl rfl⟩
  | ok cmd =>
      have he := execute_command_effects (create_run s id ws RunType.test now).1 id cmd spawn
      exact ⟨he.1.trans rfl, he.2.1.trans rfl, he.2.2.2⟩

theorem start_deploy_effects (s : EngineState) (id ws sp : String) (m : Markers)
    (spawn : Option ExitStatus) (now : Nat) :
    (start_deploy s id ws sp m spawn now).1.dbRuns =
      s.dbRuns ++ [⟨id, ws, "deploy", "running", none, none, now, none⟩] ∧
    (start_deploy s id ws sp m spawn now).1.activeRuns =
      (id, ⟨id, ws, RunType.deploy, RunStatus.running, now, none, none, none⟩) ::
        s.activeRuns.filter (fun p => p.1 ≠ id) ∧
    ((start_deploy s id ws sp m spawn now).1.pendingCompletion = s.pendingCompletion ∨
     (start_deploy s id ws sp m spawn now).1.pendingCompletion = id :: s.pendingCompletion) := by
  unfold start_deploy
  cases hm : get_deploy_command m sp with
  | error e => exact ⟨rfl, rfl, Or.inl rfl⟩
  | ok cmd =>
      have he := execute_command_effects (create_run s id ws RunType.deploy now).1 id cmd spawn
      exact ⟨he.1.trans rfl, he.2.1.trans rfl, he.2.2.2⟩

theorem exit_to_status_terminal (o : Option ExitStatus) :
    exit_to_status o = RunStatus.success ∨ exit_to_status o = RunStatus.failed := by
  cases o with
  | none => exact Or.inr rfl
  | some es => cases h : es.success <;> simp [exit_to_status, h]

theorem db_row_ok_terminal_update (r0 : DbRun) (st : RunStatus) (code : Option Int) (now : Nat)
    (hst : st = RunStatus.success ∨ st = RunStatus.failed) :
    db_row_ok { r0 with status := run_status_to_string st, exitCode := code, endedAt := some now } := by
  rcases hst with h | h <;> subst h <;> simp [db_row_ok, run_status_to_string]

theorem mem_run_ok_terminal_update (p : Run) (st : RunStatus) (code : Option Int) (now : Nat)
    (hst : st ≠ RunStatus.running) :
    mem_run_ok { p with status := st, exitCode := code, endedAt := some now } := by
  simp [mem_run_ok, hst]

theorem engine_inv_apply_cancel (s : EngineState) (id : String) (now : Nat)
    (h : engine_inv s) : engine_inv (apply_cancel_updates s id now) := by
  obtain ⟨hdb, hmem⟩ := h
  constructor
  · intro r hr
    rcases List.mem_map.mp hr with ⟨r0, hr0, hfr⟩
    by_cases hid : r0.id = id
    · rw [if_pos hid] at hfr
      rw [← hfr]
      simp [db_row_ok]
    · rw [if_neg hid] at hfr
      rw [← hfr]
      exact hdb r0 hr0
  · intro p hp
    rcases List.mem_map.mp hp with ⟨p0, hp0, hfp⟩
    by_cases hid : p0.1 = id
    · rw [if_pos hid] at hfp
      rw [← hfp]
      simp [mem_run_ok]
    · rw [if_neg hid] at hfp
      rw [← hfp]
      exact hmem p0 hp0

theorem engine_inv_complete (s : EngineState) (id : String) (now : Nat)
    (h : engine_inv s) : engine_inv (complete_run s id now) := by
  obtain ⟨hdb, hmem⟩ := h
  unfold complete_run
  split
  · constructor
    · intro r hr
      rcases List.mem_map.mp hr with ⟨r0, hr0, hfr⟩
      by_cases hid : r0.id = id
      · rw [if_pos hid] at hfr
        rw [← hfr]
        exact db_row_ok_terminal_update r0 _ _ now (exit_to_status_terminal _)
      · rw [if_neg hid] at hfr
        rw [← hfr]
        exact hdb r0 hr0
    · intro p hp
      rcases List.mem_map.mp hp with ⟨p0, hp0, hfp⟩
      by_cases hid : p0.1 = id
      · rw [if_pos hid] at hfp
        rw [← hfp]
        refine mem_run_ok_terminal_update p0.2 _ _ now ?_
        rcases exit_to_status_terminal (alookup s.procs id) with h | h <;> simp [h]
      · rw [if_neg hid] at hfp
        rw [← hfp]
        exact hmem p0 hp0
  · exact ⟨hdb, hmem⟩

theorem engine_inv_step (s : EngineState) (e : Event) (h : engine_inv s) :
    engine_inv (step s e) := by
  obtain ⟨hdb, hmem⟩ := h
  cases e with
  | startBuild id ws m spawn now =>
      have he := start_build_effects s id ws m spawn now
      constructor
      · intro r hr
        rw [show (step s (.startBuild id ws m spawn now)).dbRuns =
              (start_build s id ws m spawn now).1.dbRuns from rfl, he.1] at hr
        rcases List.mem_append.mp hr with hr | hr
        · exact hdb r hr
        · simp at hr
          subst hr
          simp [db_row_ok]
      · intro p hp
        rw [show (step s (.startBuild id ws m spawn now)).activeRuns =
              (start_build s id ws m spawn now).1.activeRuns from rfl, he.2.1] at hp
        rcases List.mem_cons.mp hp with hp | hp
        · subst hp
          simp [mem_run_ok]
        · exact hmem p (List.mem_of_mem_filter hp)
  | startTest id ws m spawn now =>
      have he := start_test_effects s id ws m spawn now
      constructor
      · intro r hr
        rw [show (step s (.startTest id ws m spawn now)).dbRuns =
              (start_test s id ws m spawn now).1.dbRuns from rfl, he.1] at hr
        rcases List.mem_append.mp hr with hr | hr
        · exact hdb r hr
        · simp at hr
          subst hr
          simp [db_row_ok]
      · intro p hp
        rw [show (step s (.startTest id ws m spawn now)).activeRuns =
              (start_test s id ws m spawn now).1.activeRuns from rfl, he.2.1] at hp
        rcases List.mem_cons.mp hp with hp | hp
        · subst hp
          simp [mem_run_ok]
        · exact hmem p (List.mem_of_mem_filter hp)
  | startDeploy id ws sp m spawn now =>
      have he := start_deploy_effects s id ws sp m spawn now
      constructor
      · intro r hr
        rw [show (step s (.startDeploy id ws sp m spawn now)).dbRuns =
              (start_deploy s id ws sp m spawn now).1.dbRuns from rfl, he.1] at hr
        rcases List.mem_append.mp hr with hr | hr
        · exact hdb r hr
        · simp at hr
          subst hr
          simp [db_row_ok]
      · intro p hp
        rw [show (step s (.startDeploy id ws sp m spawn now)).activeRuns =
              (start_deploy s id ws sp m spawn now).1.activeRuns from rfl, he.2.1] at hp
        rcases List.mem_cons.mp hp with hp | hp
        · subst hp
          simp [mem_run_ok]
        · exact hmem p (List.mem_of_mem_filter hp)
  | cancel id killOk now =>
      show engine_inv (cancel_run s id killOk now).1
      unfold cancel_run
      cases hp : alookup s.procs id with
      | some es =>
          cases killOk
          · exact ⟨hdb, hmem⟩
          · exact engine_inv_apply_cancel _ id now ⟨hdb, hmem⟩
      | none => exact engine_inv_apply_cancel s id now ⟨hdb, hmem⟩
  | complete id now => exact engine_inv_complete s id now ⟨hdb, hmem⟩
  | outLine id line => exact ⟨hdb, hmem⟩
  | errLine id line => exact ⟨hdb, hmem⟩
  | evict id => exact ⟨hdb, hmem⟩

theorem engine_inv_foldl (events : List Event) (s : EngineState) (h : engine_inv s) :
    engine_inv (events.foldl step s) := by
  induction events generalizing s with
  | nil => exact h
  | cons e rest ih => exact ih _ (engine_inv_step s e h)

/-- C5: along every schedule of engine transitions from the initial state —
run creations, completions, cancellations, output captures — every run
record, durable or cached, has `ended_at` set exactly when its status is
terminal (Success, Failed or Cancelled); a Running run has no
`ended_at`. -/
theorem C5_ended_at_iff_terminal (events : List Event) :
    engine_inv (events.foldl step initEngine) :=
  engine_inv_foldl events initEngine ⟨fun _ hr => (nomatch hr), fun _ hp => (nomatch hp)⟩

/-- C1 counterexample: a build start whose child fails to spawn does return
the Process error, and the run record exists — but with status `running`,
not `failed`, and with no process handle and no completion task that could
ever move it to Failed. -/
theorem C1_counterexample :
    (start_build initEngine "r1" "ws1" ⟨true, false, false, false, false⟩ none 0).2 =
      .error (.process "Failed to spawn process") ∧
    (start_build initEngine "r1" "ws1" ⟨true, false, false, false, false⟩ none 0).1.dbRuns.map
        DbRun.status = ["running"] ∧
    (start_build initEngine "r1" "ws1" ⟨true, false, false, false, false⟩
        none 0).1.pendingCompletion = [] ∧
    (start_build initEngine "r1" "ws1" ⟨true, false, false, false, false⟩ none 0).1.procs = [] :=
  ⟨rfl, rfl, rfl, rfl⟩

theorem get_build_command_ne_nil (m : Markers) (cmd : List String)
    (hm : get_build_command m = .ok cmd) : cmd ≠ [] := by
  unfold get_build_command at hm
  split_ifs at hm <;> (try cases hm) <;> simp_all

theorem apply_cancel_updates_row_status (s : EngineState) (rid : String) (now : Nat)
    (id : String)
    (hdb : ∀ r ∈ s.dbRuns, r.id = id → (r.status = "running" ∨ r.status = "cancelled")) :
    ∀ r ∈ (apply_cancel_updates s rid now).dbRuns, r.id = id →
      (r.status = "running" ∨ r.status = "cancelled") := by
  intro r hr hrid
  rcases List.mem_map.mp hr with ⟨r0, hr0, hfr⟩
  by_cases hc : r0.id = rid
  · rw [if_pos hc] at hfr
    rw [← hfr]
    exact Or.inr rfl
  · rw [if_neg hc] at hfr
    rw [← hfr]
    exact hdb r0 hr0 (by rw [hfr]; exact hrid)

theorem spawn_failed_inv_step (s : EngineState) (id : String) (e : Event)
    (hfresh : startsId e ≠ some id) (h : spawn_failed_inv s id) :
    spawn_failed_inv (step s e) id := by
  obtain ⟨hdb, hpend⟩ := h
  cases e with
  | startBuild id' ws m spawn now =>
      have hne : id' ≠ id := fun hc => hfresh (by simp [startsId, hc])
      have he := start_build_effects s id' ws m spawn now
      constructor
      · intro r hr hrid
        rw [show (step s (.startBuild id' ws m spawn now)).dbRuns =
              (start_build s id' ws m spawn now).1.dbRuns from rfl, he.1] at hr
        rcases List.mem_append.mp hr with hr | hr
        · exact hdb r hr hrid
        · simp at hr
          subst hr
          exact absurd hrid hne
      · rcases he.2.2 with hp | hp
        · rw [show (step s (.startBuild id' ws m spawn now)).pendingCompletion =
              (start_build s id' ws m spawn now).1.pendingCompletion from rfl, hp]
          exact hpend
        · rw [show (step s (.startBuild id' ws m spawn now)).pendingCompletion =
              (start_build s id' ws m spawn now).1.pendingCompletion from rfl, hp]
          intro hc
          rcases List.mem_cons.mp hc with hc | hc
          · exact hne hc.symm
          · exact hpend hc
  | startTest id' ws m spawn now =>
      have hne : id' ≠ id := fun hc => hfresh (by simp [startsId, hc])
      have he := start_test_effects s id' ws m spawn now
      constructor
      · intro r hr hrid
        rw [show (step s (.startTest id' ws m spawn now)).dbRuns =
              (start_test s id' ws m spawn now).1.dbRuns from rfl, he.1] at hr
        rcases List.mem_append.mp hr with hr | hr
        · exact hdb r hr hrid
        · simp at hr
          subst hr
          exact absurd hrid hne
      · rcases he.2.2 with hp | hp
        · rw [show (step s (.startTest id' ws m spawn now)).pendingCompletion =
              (start_test s id' ws m spawn now).1.pendingCompletion from rfl, hp]
          exact hpend
        · rw [show (step s (.startTest id' ws m spawn now)).pendingCompletion =
              (start_test s id' ws m spawn now).1.pendingCompletion from rfl, hp]
          intro hc
          rcases List.mem_cons.mp hc with hc | hc
          · exact hne hc.symm
          · exact hpend hc
  | startDeploy id' ws sp m spawn now =>
      have hne : id' ≠ id := fun hc => hfresh (by simp [startsId, hc])
      have he := start_deploy_effects s id' ws sp m spawn now
      constructor
      · intro r hr hrid
        rw [show (step s (.startDeploy id' ws sp m spawn now)).dbRuns =
              (start_deploy s id' ws sp m spawn now).1.dbRuns from rfl, he.1] at hr
        rcases List.mem_append.mp hr with hr | hr
        · exact hdb r hr hrid
        · simp at hr
          subst hr
          exact absurd hrid hne
      · rcases he.2.2 with hp | hp
        · rw [show (step s (.startDeploy id' ws sp m spawn now)).pendingCompletion =
              (start_deploy s id' ws sp m spawn now).1.pendingCompletion from rfl, hp]
          exact hpend
        · rw [show (step s (.startDeploy id' ws sp m spawn now)).pendingCompletion =
              (start_deploy s id' ws sp m spawn now).1.pendingCompletion from rfl, hp]
          intro hc
          rcases List.mem_cons.mp hc with hc | hc
          · exact hne hc.symm
          · exact hpend hc
  | cancel id' killOk now =>
      show spawn_failed_inv (cancel_run s id' killOk now).1 id
      unfold cancel_run
      cases hp : alookup s.procs id' with
      | some es =>
          cases killOk
          · exact ⟨hdb, hpend⟩
          · exact ⟨apply_cancel_updates_row_status _ id' now id hdb, hpend⟩
      | none => exact ⟨apply_cancel_updates_row_status s id' now id hdb, hpend⟩
  | complete id' now =>
      show spawn_failed_inv (complete_run s id' now) id
      unfold complete_run
      split
      · have hne : id' ≠ id := by
          intro hc
          subst hc
          exact hpend (by assumption)
        constructor
        · intro r hr hrid
          rcases List.mem_map.mp hr with ⟨r0, hr0, hfr⟩
          by_cases hc : r0.id = id'
          · rw [if_pos hc] at hfr
            rw [← hfr] at hrid
            have : r0.id = id := hrid
            exact absurd (hc.symm.trans this) hne
          · rw [if_neg hc] at hfr
            rw [← hfr]
            exact hdb r0 hr0 (by rw [hfr]; exact hrid)
        · intro hc
          exact hpend (List.mem_of_mem_filter hc)
      · exact ⟨hdb, hpend⟩
  | outLine id' line => exact ⟨hdb, hpend⟩
  | errLine id' line => exact ⟨hdb, hpend⟩
  | evict id' => exact ⟨hdb, hpend⟩

theorem spawn_failed_inv_foldl (events : List Event) (s : EngineState) (id : String)
    (hfresh : ∀ e ∈ events, startsId e ≠ some id) (h : spawn_failed_inv s id) :
    spawn_failed_inv (events.foldl step s) id := by
  induction events generalizing s with
  | nil => exact h
  | cons e rest ih =>
      exact ih _ (fun e' he' => hfresh e' (List.mem_cons_of_mem _ he'))
        (spawn_failed_inv_step s id e (hfresh e (List.mem_cons_self _ _)) h)

theorem get_test_command_ne_nil (m : Markers) (cmd : List String)
    (hm : get_test_command m = .ok cmd) : cmd ≠ [] := by
  unfold get_test_command at hm
  split_ifs at hm <;> (try cases hm) <;> simp_all

theorem get_deploy_command_ne_nil (m : Markers) (sp : String) (cmd : List String)
    (hm : get_deploy_command m sp = .ok cmd) : cmd ≠ [] := by
  unfold get_deploy_command at hm
  split_ifs at hm <;> (try cases hm) <;> simp_all

theorem start_build_spawn_none_pending (s : EngineState) (id ws : String) (m : Markers)
    (now : Nat) :
    (start_build s id ws m none now).1.pendingCompletion = s.pendingCompletion := by
  unfold start_build
  cases hm : get_build_command m with
  | error e => rfl
  | ok cmd =>
      by_cases hc : cmd = []
      · simp [execute_command, hc, create_run]
      · simp [execute_command, hc, create_run]

theorem start_test_spawn_none_pending (s : EngineState) (id ws : String) (m : Markers)
    (now : Nat) :
    (start_test s id ws m none now).1.pendingCompletion = s.pendingCompletion := by
  unfold start_test
  cases hm : get_test_command m with
  | error e => rfl
  | ok cmd =>
      by_cases hc : cmd = []
      · simp [execute_command, hc, create_run]
      · simp [execute_command, hc, create_run]

theorem start_deploy_spawn_none_pending (s : EngineState) (id ws sp : String) (m : Markers)
    (now : Nat) :
    (start_deploy s id ws sp m none now).1.pendingCompletion = s.pendingCompletion := by
  unfold start_deploy
  cases hm : get_deploy_command m sp with
  | error e => rfl
  | ok cmd =>
      by_cases hc : cmd = []
      · simp [execute_command, hc, create_run]
      · simp [execute_command, hc, create_run]

theorem spawn_failed_inv_start_build (s : EngineState) (id ws : String) (m : Markers)
    (now : Nat) (hrow : ∀ r ∈ s.dbRuns, r.id ≠ id) (hpend : id ∉ s.pendingCompletion) :
    spawn_failed_inv (start_build s id ws m none now).1 id := by
  constructor
  · intro r hr hrid
    rw [(start_build_effects s id ws m none now).1] at hr
    rcases List.mem_append.mp hr with hr | hr
    · exact absurd hrid (hrow r hr)
    · simp at hr
      subst hr
      exact Or.inl rfl
  · intro hc
    rw [start_build_spawn_none_pending] at hc
    exact hpend hc

theorem spawn_failed_inv_start_test (s : EngineState) (id ws : String) (m : Markers)
    (now : Nat) (hrow : ∀ r ∈ s.dbRuns, r.id ≠ id) (hpend : id ∉ s.pendingCompletion) :
    spawn_failed_inv (start_test s id ws m none now).1 id := by
  constructor
  · intro r hr hrid
    rw [(start_test_effects s id ws m none now).1] at hr
    rcases List.mem_append.mp hr with hr | hr
    · exact absurd hrid (hrow r hr)
    · simp at hr
      subst hr
      exact Or.inl rfl
  · intro hc
    rw [start_test_spawn_none_pending] at hc
    exact hpend hc

theorem spawn_failed_inv_start_deploy (s : EngineState) (id ws sp : String) (m : Markers)
    (now : Nat) (hrow : ∀ r ∈ s.dbRuns, r.id ≠ id) (hpend : id ∉ s.pendingCompletion) :
    spawn_failed_inv (start_deploy s id ws sp m none now).1 id := by
  constructor
  · intro r hr hrid
    rw [(start_deploy_effects s id ws sp m none now).1] at hr
    rcases List.mem_append.mp hr with hr | hr
    · exact absurd hrid (hrow r hr)
    · simp at hr
      subst hr
      exact Or.inl rfl
  · intro hc
    rw [start_deploy_spawn_none_pending] at hc
    exact hpend hc

theorem start_script_effects (s : ScriptState) (script : Script) (runId : String)
    (flags : List (String × String)) (spawnOk : Bool) (now : Nat)
    (hval : missing_required_flag script flags = none) :
    (start_script s script runId flags spawnOk now).1.dbRuns =
      s.dbRuns ++ [⟨runId, script.id, now, none, "running", none, ""⟩] := by
  unfold start_script
  rw [hval]
  cases spawnOk <;> rfl

theorem start_script_spawn_fail (s : ScriptState) (script : Script) (runId : String)
    (flags : List (String × String)) (now : Nat)
    (hval : missing_required_flag script flags = none) :
    (start_script s script runId flags false now).2 =
      .error (.process "Failed to spawn script") ∧
    (start_script s script runId flags false now).1.tasks = s.tasks ∧
    (start_script s script runId flags false now).1.active = s.active := by
  unfold start_script
  rw [hval]
  exact ⟨rfl, rfl, rfl⟩

theorem script_spawn_failed_inv_step (s : ScriptState) (id : String) (e : ScriptEvent)
    (hfresh : script_starts_id e ≠ some id) (h : script_spawn_failed_inv s id) :
    script_spawn_failed_inv (script_step s e) id := by
  obtain ⟨hdb, htask⟩ := h
  cases e with
  | start script runId flags spawnOk now =>
      have hne : runId ≠ id := fun hc => hfresh (by simp [script_starts_id, hc])
      show script_spawn_failed_inv (start_script s script runId flags spawnOk now).1 id
      unfold start_script
      cases hval : missing_required_flag script flags with
      | some f => exact ⟨hdb, htask⟩
      | none =>
          cases spawnOk with
          | false =>
              constructor
              · intro r hr hrid
                rcases List.mem_append.mp hr with hr | hr
                · exact hdb r hr hrid
                · simp at hr
                  subst hr
                  rfl
              · exact htask
          | true =>
              constructor
              · intro r hr hrid
                rcases List.mem_append.mp hr with hr | hr
                · exact hdb r hr hrid
                · simp at hr
                  subst hr
                  rfl
              · intro hc
                rcases List.mem_cons.mp hc with hc | hc
                · exact hne hc.symm
                · exact htask hc
  | cancel runId =>
      show script_spawn_failed_inv (cancel_script s runId).1 id
      unfold cancel_script
      split
      · exact ⟨hdb, htask⟩
      · exact ⟨hdb, htask⟩
  | completeBranch runId es now =>
      show script_spawn_failed_inv (script_complete_branch s runId es now) id
      unfold script_complete_branch
      split
      · rename_i hmem
        have hne : runId ≠ id := fun hc => htask (hc ▸ hmem)
        constructor
        · intro r hr hrid
          rcases List.mem_map.mp hr with ⟨r0, hr0, hfr⟩
          by_cases hcq : r0.id = runId
          · rw [if_pos hcq] at hfr
            rw [← hfr] at hrid
            have hr0id : r0.id = id := hrid
            exact absurd (hcq.symm.trans hr0id) hne
          · rw [if_neg hcq] at hfr
            rw [← hfr]
            exact hdb r0 hr0 (by rw [hfr]; exact hrid)
        · intro hc
          exact htask (List.mem_of_mem_filter hc)
      · exact ⟨hdb, htask⟩
  | cancelBranch runId now =>
      show script_spawn_failed_inv (script_cancel_branch s runId now) id
      unfold script_cancel_branch
      split
      · rename_i hmem
        have hne : runId ≠ id := fun hc => htask (hc ▸ hmem.1)
        constructor
        · intro r hr hrid
          rcases List.mem_map.mp hr with ⟨r0, hr0, hfr⟩
          by_cases hcq : r0.id = runId
          · rw [if_pos hcq] at hfr
            rw [← hfr] at hrid
            have hr0id : r0.id = id := hrid
            exact absurd (hcq.symm.trans hr0id) hne
          · rw [if_neg hcq] at hfr
            rw [← hfr]
            exact hdb r0 hr0 (by rw [hfr]; exact hrid)
        · intro hc
          exact htask (List.mem_of_mem_filter hc)
      · exact ⟨hdb, htask⟩

theorem script_spawn_failed_inv_foldl (events : List ScriptEvent) (s : ScriptState)
    (id : String) (hfresh : ∀ e ∈ events, script_starts_id e ≠ some id)
    (h : script_spawn_failed_inv s id) :
    script_spawn_failed_inv (events.foldl script_step s) id := by
  induction events generalizing s with
  | nil => exact h
  | cons e rest ih =>
      exact ih _ (fun e' he' => hfresh e' (List.mem_cons_of_mem _ he'))
        (script_spawn_failed_inv_step s id e (hfresh e (List.mem_cons_self _ _)) h)

/-- C1 amended: for every start operation (build, test, deploy or script)
whose child fails to spawn, the Process error is returned to the caller
and a run record for the accepted request exists in the store — but it
stays in the Running status along every subsequent schedule not reusing
the run id (for build/test/deploy it can become at most Cancelled via a
later explicit cancel): it never transitions to Failed, because no
completion task was scheduled. -/
theorem C1_spawn_failure_amended :
    (∀ (s : EngineState) (id ws : String) (m : Markers) (now : Nat) (cmd : List String)
        (events : List Event),
      get_build_command m = .ok cmd →
      (∀ r ∈ s.dbRuns, r.id ≠ id) → id ∉ s.pendingCompletion →
      (∀ e ∈ events, startsId e ≠ some id) →
      (start_build s id ws m none now).2 = .error (.process "Failed to spawn process") ∧
      (start_build s id ws m none now).1.dbRuns =
        s.dbRuns ++ [⟨id, ws, "build", "running", none, none, now, none⟩] ∧
      (∀ r ∈ (events.foldl step (start_build s id ws m none now).1).dbRuns,
        r.id = id → (r.status = "running" ∨ r.status = "cancelled"))) ∧
    (∀ (s : EngineState) (id ws : String) (m : Markers) (now : Nat) (cmd : List String)
        (events : List Event),
      get_test_command m = .ok cmd →
      (∀ r ∈ s.dbRuns, r.id ≠ id) → id ∉ s.pendingCompletion →
      (∀ e ∈ events, startsId e ≠ some id) →
      (start_test s id ws m none now).2 = .error (.process "Failed to spawn process") ∧
      (start_test s id ws m none now).1.dbRuns =
        s.dbRuns ++ [⟨id, ws, "test", "running", none, none, now, none⟩] ∧
      (∀ r ∈ (events.foldl step (start_test s id ws m none now).1).dbRuns,
        r.id = id → (r.status = "running" ∨ r.status = "cancelled"))) ∧
    (∀ (s : EngineState) (id ws sp : String) (m : Markers) (now : Nat) (cmd : List String)
        (events : List Event),
      get_deploy_command m sp = .ok cmd →
      (∀ r ∈ s.dbRuns, r.id ≠ id) → id ∉ s.pendingCompletion →
      (∀ e ∈ events, startsId e ≠ some id) →
      (start_deploy s id ws sp m none now).2 = .error (.process "Failed to spawn process") ∧
      (start_deploy s id ws sp m none now).1.dbRuns =
        s.dbRuns ++ [⟨id, ws, "deploy", "running", none, none, now, none⟩] ∧
      (∀ r ∈ (events.foldl step (start_deploy s id ws sp m none now).1).dbRuns,
        r.id = id → (r.status = "running" ∨ r.status = "cancelled"))) ∧
    (∀ (ss : ScriptState) (script : Script) (runId : String)
        (flags : List (String × String)) (now : Nat) (events : List ScriptEvent),
      missing_required_flag script flags = none →
      (∀ r ∈ ss.dbRuns, r.id ≠ runId) → runId ∉ ss.tasks →
      (∀ e ∈ events, script_starts_id e ≠ some runId) →
      (start_script ss script runId flags false now).2 =
        .error (.process "Failed to spawn script") ∧
      (start_script ss script runId flags false now).1.dbRuns =
        ss.dbRuns ++ [⟨runId, script.id, now, none, "running", none, ""⟩] ∧
      (∀ r ∈ (events.foldl script_step
          (start_script ss script runId flags false now).1).dbRuns,
        r.id = runId → r.status = "running")) := by
  refine ⟨?_, ?_, ?_, ?_⟩
  · intro s id ws m now cmd events hm hrow hpend hfresh
    have hne := get_build_command_ne_nil m cmd hm
    refine ⟨?_, (start_build_effects s id ws m none now).1, ?_⟩
    · unfold start_build
      rw [hm]
      simp [execute_command, hne]
    · exact (spawn_failed_inv_foldl events _ id hfresh
        (spawn_failed_inv_start_build s id ws m now hrow hpend)).1
  · intro s id ws m now cmd events hm hrow hpend hfresh
    have hne := get_test_command_ne_nil m cmd hm
    refine ⟨?_, (start_test_effects s id ws m none now).1, ?_⟩
    · unfold start_test
      rw [hm]
      simp [execute_command, hne]
    · exact (spawn_failed_inv_foldl events _ id hfresh
        (spawn_failed_inv_start_test s id ws m now hrow hpend)).1
  · intro s id ws sp m now cmd events hm hrow hpend hfresh
    have hne := get_deploy_command_ne_nil m sp cmd hm
    refine ⟨?_, (start_deploy_effects s id ws sp m none now).1, ?_⟩
    · unfold start_deploy
      rw [hm]
      simp [execute_command, hne]
    · exact (spawn_failed_inv_foldl events _ id hfresh
        (spawn_failed_inv_start_deploy s id ws sp m now hrow hpend)).1
  · intro ss script runId flags now events hval hrow htask hfresh
    have heff := start_script_spawn_fail ss script runId flags now hval
    refine ⟨heff.1, start_script_effects ss script runId flags false now hval, ?_⟩
    have hinv : script_spawn_failed_inv
        (start_script ss script runId flags false now).1 runId := by
      constructor
      · intro r hr hrid
        rw [start_script_effects ss script runId flags false now hval] at hr
        rcases List.mem_append.mp hr with hr | hr
        · exact absurd hrid (hrow r hr)
        · simp at hr
          subst hr
          rfl
      · rw [heff.2.1]
        exact htask
    exact (script_spawn_failed_inv_foldl events _ runId hfresh hinv).1

/-- Witness for C1 amended: a concrete build spawn failure followed by a
cancel never shows Failed, and a concrete script spawn failure followed by
a cancel attempt stays Running. -/
theorem C1_spawn_failure_amended_witness :
    ((start_build initEngine "r1" "ws1" ⟨true, false, false, false, false⟩ none 0).2 =
      .error (.process "Failed to spawn process") ∧
    ∀ r ∈ ([Event.cancel "r1" true 5].foldl step
        (start_build initEngine "r1" "ws1" ⟨true, false, false, false, false⟩ none 0).1).dbRuns,
      r.id = "r1" → (r.status = "running" ∨ r.status = "cancelled")) ∧
    ((start_script initScriptState ⟨"s1", "w1", ScriptRunner.bash, "run.sh", none, none, []⟩
        "r9" [] false 0).2 = .error (.process "Failed to spawn script") ∧
    ∀ r ∈ ([ScriptEvent.cancel "r9"].foldl script_step
        (start_script initScriptState ⟨"s1", "w1", ScriptRunner.bash, "run.sh", none, none, []⟩
          "r9" [] false 0).1).dbRuns,
      r.id = "r9" → r.status = "running") := by
  have h1 := C1_spawn_failure_amended.1 initEngine "r1" "ws1"
    ⟨true, false, false, false, false⟩ 0 ["forge", "build"] [Event.cancel "r1" true 5]
    rfl (by intro r hr; exact (nomatch hr)) (by intro hc; exact (nomatch hc))
    (by intro e he; simp at he; subst he; simp [startsId])
  have h2 := C1_spawn_failure_amended.2.2.2 initScriptState
    ⟨"s1", "w1", ScriptRunner.bash, "run.sh", none, none, []⟩ "r9" [] 0
    [ScriptEvent.cancel "r9"]
    rfl (by intro r hr; exact (nomatch hr)) (by intro hc; exact (nomatch hc))
    (by intro e he; simp at he; subst he; simp [script_starts_id])
  exact ⟨⟨h1.1, h1.2.2⟩, ⟨h2.1, h2.2.2⟩⟩

theorem run_stream_fields (s : EngineState) (r : String) (t : List StreamEv) :
    (run_stream s r t).dbRuns = s.dbRuns ∧
    (run_stream s r t).dbLogs = s.dbLogs ∧
    (run_stream s r t).procs = s.procs ∧
    (run_stream s r t).activeRuns = s.activeRuns ∧
    (run_stream s r t).pendingCompletion = s.pendingCompletion := by
  induction t generalizing s with
  | nil => exact ⟨rfl, rfl, rfl, rfl, rfl⟩
  | cons e rest ih =>
      have h := ih (ev_step r s e)
      cases e <;> exact h

theorem run_stream_cache (s : EngineState) (r : String) (t : List StreamEv)
    (acc : List String) (hbuf : alookup s.runLogs r = some acc) :
    alookup (run_stream s r t).runLogs r = some (acc ++ t.map render_ev) := by
  induction t generalizing s acc with
  | nil => simpa using hbuf
  | cons e rest ih =>
      have hstep : alookup (ev_step r s e).runLogs r = some (acc ++ [render_ev e]) := by
        cases e with
        | out line =>
            have h2 := alookup_map_update s.runLogs r (fun v => v ++ [line])
            rw [hbuf] at h2
            simpa [ev_step, push_stdout, render_ev] using h2
        | err line =>
            have h2 := alookup_map_update s.runLogs r (fun v => v ++ ["[stderr] " ++ line])
            rw [hbuf] at h2
            simpa [ev_step, push_stderr, push_stdout, render_ev] using h2
      have h := ih (ev_step r s e) (acc ++ [render_ev e]) hstep
      simpa [List.append_assoc] using h

theorem outs_of_sublist (t : List StreamEv) :
    List.Sublist (outs_of t) (t.map render_ev) := by
  induction t with
  | nil => simp [outs_of]
  | cons e rest ih =>
      cases e with
      | out l =>
          simpa [outs_of, render_ev] using ih.cons₂ l
      | err l =>
          simpa [outs_of, render_ev] using ih.cons ("[stderr] " ++ l)

theorem number_from_lb (k : Nat) (ls : List String) :
    ∀ q ∈ number_from k ls, k ≤ q.2 := by
  induction ls generalizing k with
  | nil => intro q hq; exact (nomatch hq)
  | cons l rest ih =>
      intro q hq
      rcases List.mem_cons.mp hq with hq | hq
      · subst hq; exact Nat.le_refl k
      · exact Nat.le_of_succ_le (ih (k + 1) q hq)

theorem insert_by_order_head (x y : String × Nat) (ys : List (String × Nat))
    (h : x.2 ≤ y.2) : insert_by_order x (y :: ys) = x :: y :: ys := by
  simp [insert_by_order, h]

theorem sort_number_from (k : Nat) (ls : List String) :
    sort_by_order (number_from k ls) = number_from k ls := by
  induction ls generalizing k with
  | nil => rfl
  | cons l rest ih =>
      show sort_by_order ((l, k) :: number_from (k + 1) rest) = _
      unfold sort_by_order
      rw [ih (k + 1)]
      cases h : number_from (k + 1) rest with
      | nil => simp [number_from, h, insert_by_order]
      | cons y ys =>
          have hmem : y ∈ number_from (k + 1) rest := by rw [h]; exact List.mem_cons_self y ys
          have hy : k ≤ y.2 := Nat.le_of_succ_le (number_from_lb (k + 1) rest y hmem)
          rw [insert_by_order_head (l, k) y ys hy]
          simp [number_from, h]

theorem number_from_fst (k : Nat) (ls : List String) :
    (number_from k ls).map (·.1) = ls := by
  induction ls generalizing k with
  | nil => rfl
  | cons l rest ih => simp [number_from, ih]

theorem filter_map_roundtrip (r : String) (l : List (String × Nat)) :
    ((l.map fun q => (r, q.1, q.2)).filter fun q => q.1 = r).map
      (fun q => (q.2.1, q.2.2)) = l := by
  induction l with
  | nil => rfl
  | cons q rest ih => simp [ih]

theorem db_query_logs_append_fresh (db : List (String × String × Nat)) (r : String)
    (hdb : db.filter (fun q => q.1 = r) = []) (lines : List String) :
    db_query_logs (db ++ (number_from 0 lines).map (fun q => (r, q.1, q.2))) r = lines := by
  unfold db_query_logs
  rw [List.filter_append, hdb]
  simp only [List.nil_append]
  rw [filter_map_roundtrip, sort_number_from, number_from_fst]

theorem complete_run_runLogs (s : EngineState) (rid : String) (now : Nat) :
    (complete_run s rid now).runLogs = s.runLogs := by
  unfold complete_run
  split <;> rfl

theorem complete_run_dbLogs (s : EngineState) (rid : String) (now : Nat)
    (hpend : rid ∈ s.pendingCompletion) :
    (complete_run s rid now).dbLogs =
      s.dbLogs ++
        (number_from 0 ((alookup s.runLogs rid).getD [])).map (fun q => (rid, q.1, q.2)) := by
  unfold complete_run
  rw [if_pos hpend]

/-- C8: for any interleaved schedule of stdout/stderr reader iterations in
which the stdout lines appear in emission order `Ls`, the log sequence
accumulated for the run and returned by `get_run_logs` — from the live
cache, after completion, and after cache eviction from the persisted
`run_logs` table — is the rendered schedule, and it contains the stdout
lines `Ls` as a subsequence in their original order, however the stderr
appends interleave. -/
theorem C8_stdout_order (s : EngineState) (r : String) (t : List StreamEv)
    (Ls : List String) (now : Nat)
    (hbuf : alookup s.runLogs r = some [])
    (hpend : r ∈ s.pendingCompletion)
    (hdb : s.dbLogs.filter (fun q => q.1 = r) = [])
    (houts : outs_of t = Ls) :
    get_run_logs (run_stream s r t) r = .ok (t.map render_ev) ∧
    get_run_logs (complete_run (run_stream s r t) r now) r = .ok (t.map render_ev) ∧
    get_run_logs (evict_logs (complete_run (run_stream s r t) r now) r) r =
      .ok (t.map render_ev) ∧
    List.Sublist Ls (t.map render_ev) := by
  have hcache := run_stream_cache s r t [] hbuf
  simp only [List.nil_append] at hcache
  have hfields := run_stream_fields s r t
  refine ⟨?_, ?_, ?_, ?_⟩
  · simp [get_run_logs, hcache]
  · have hc : alookup (complete_run (run_stream s r t) r now).runLogs r =
        some (t.map render_ev) := by
      rw [complete_run_runLogs]
      exact hcache
    simp [get_run_logs, hc]
  · have hnone : alookup (evict_logs (complete_run (run_stream s r t) r now) r).runLogs r =
        none := by
      unfold evict_logs
      exact alookup_filter_none _ _ _ (by intro p hp; simp [hp])
    have hpend' : r ∈ (run_stream s r t).pendingCompletion := by
      rw [hfields.2.2.2.2]
      exact hpend
    have hdbl := complete_run_dbLogs (run_stream s r t) r now hpend'
    rw [hcache] at hdbl
    simp only [Option.getD_some] at hdbl
    simp only [get_run_logs, hnone]
    rw [show (evict_logs (complete_run (run_stream s r t) r now) r).dbLogs =
          (complete_run (run_stream s r t) r now).dbLogs from rfl, hdbl, hfields.2.1]
    rw [db_query_logs_append_fresh s.dbLogs r hdb (t.map render_ev)]
  · subst houts
    exact outs_of_sublist t

/-- Witness for C8 at the concrete schedule `L1`, stderr `E1`, `L2`. -/
theorem C8_stdout_order_witness :
    get_run_logs
        (run_stream { initEngine with runLogs := [("r1", [])], pendingCompletion := ["r1"] }
          "r1" [StreamEv.out "L1", StreamEv.err "E1", StreamEv.out "L2"]) "r1" =
      .ok ["L1", "[stderr] E1", "L2"] ∧
    List.Sublist ["L1", "L2"] ["L1", "[stderr] E1", "L2"] := by
  have h := C8_stdout_order
    { initEngine with runLogs := [("r1", [])], pendingCompletion := ["r1"] }
    "r1" [StreamEv.out "L1", StreamEv.err "E1", StreamEv.out "L2"] ["L1", "L2"] 9
    rfl (by simp) rfl rfl
  exact ⟨h.1, h.2.2.2⟩

end Coco
